import Mathlib

/-!
Shallow embedding of the event-arena game server (TypeScript source) in Lean 4,
together with proofs settling the specification claims about it.

Conventions used throughout:
* JS numbers are modelled as rationals (`ℚ`); integer counters as `ℕ`.
* `Date.now()` is passed explicitly as a `now : ℚ` argument to every
  operation that reads the clock in the source.
* JS `Map` objects (insertion-ordered) are modelled as association lists in
  insertion order; `Map.get` is `lookup`-style search, `Map.set` updates in
  place or appends, `Map.delete` filters.
* The source compares Euclidean distances (`Math.hypot(dx,dy) <= r`); the
  embedding uses the equivalent squared comparison `dx^2+dy^2 <= r^2`
  (both sides of every such comparison in the source are nonnegative).
* Fields of the mutable state that no verified claim observes and whose
  values require irrational arithmetic (the normalized knockback velocity
  components, the visual-effect manager, projectile velocities produced by
  trigonometric spread) are not represented; where a handler writes such a
  field, the embedding keeps the computable part (e.g. the knockback expiry
  timestamp) and a comment marks the omission.
-/

namespace EventArena

/-- Planar vector with rational coordinates (source: vec2.type.ts, `{x, y}`). -/
structure Vec2 where
  x : ℚ
  y : ℚ
deriving Repr, DecidableEq

/-- Squared Euclidean distance between two points. -/
def dist2 (a b : Vec2) : ℚ :=
  (a.x - b.x) ^ 2 + (a.y - b.y) ^ 2

/-- Embedding of the source comparison `Math.hypot(a.x-b.x, a.y-b.y) <= r`
(equivalent squared form, valid because `r ≥ 0` at every use site). -/
def withinDist (a b : Vec2) (r : ℚ) : Bool :=
  dist2 a b ≤ r ^ 2

/-- Embedding of the source comparison `Math.hypot(...) < r`. -/
def closerThan (a b : Vec2) (r : ℚ) : Bool :=
  dist2 a b < r ^ 2

/-- JS `Math.round` for the nonnegative arguments it receives here:
round half up. -/
def jsRound (q : ℚ) : ℤ :=
  ⌊q + 1 / 2⌋

/-- Player statistics record (source: src/server/entities/player-stats.ts,
class `PlayerStats`). -/
structure PlayerStats where
  kills : ℕ
  deaths : ℕ
  assists : ℕ
  currentStreak : ℕ
  bestStreak : ℕ
  damageDealt : ℚ
  damageTaken : ℚ
  shotsHit : ℕ
  shotsFired : ℕ
  matchStartTime : ℚ
  lastKillTime : Option ℚ
  lastDeathTime : Option ℚ
deriving Repr, DecidableEq

namespace PlayerStats

/-- Constructor: all counters zero, `matchStartTime = Date.now()`. -/
def init (now : ℚ) : PlayerStats :=
  { kills := 0, deaths := 0, assists := 0, currentStreak := 0, bestStreak := 0
    damageDealt := 0, damageTaken := 0, shotsHit := 0, shotsFired := 0
    matchStartTime := now, lastKillTime := none, lastDeathTime := none }

/-- `addKill`: increment kills and streak, update best streak. -/
def addKill (s : PlayerStats) (timestamp : ℚ) : PlayerStats :=
  let s := { s with kills := s.kills + 1, currentStreak := s.currentStreak + 1
                    lastKillTime := some timestamp }
  if s.bestStreak < s.currentStreak then { s with bestStreak := s.currentStreak } else s

/-- `addDeath`: increment deaths, reset streak. -/
def addDeath (s : PlayerStats) (timestamp : ℚ) : PlayerStats :=
  { s with deaths := s.deaths + 1, currentStreak := 0, lastDeathTime := some timestamp }

/-- `addAssist`. -/
def addAssist (s : PlayerStats) : PlayerStats :=
  { s with assists := s.assists + 1 }

/-- `addDamageDealt`. -/
def addDamageDealt (s : PlayerStats) (amount : ℚ) : PlayerStats :=
  { s with damageDealt := s.damageDealt + amount }

/-- `addDamageTaken`. -/
def addDamageTaken (s : PlayerStats) (amount : ℚ) : PlayerStats :=
  { s with damageTaken := s.damageTaken + amount }

/-- `addShotFired`. -/
def addShotFired (s : PlayerStats) : PlayerStats :=
  { s with shotsFired := s.shotsFired + 1 }

/-- `addShotHit`: a hit also counts as a shot fired (calls `addShotFired`). -/
def addShotHit (s : PlayerStats) : PlayerStats :=
  addShotFired { s with shotsHit := s.shotsHit + 1 }

/-- `getAccuracy`: `Math.round((shotsHit / shotsFired) * 100)`, 0 when no
shot was fired. -/
def getAccuracy (s : PlayerStats) : ℤ :=
  if s.shotsFired = 0 then 0
  else jsRound ((s.shotsHit : ℚ) / (s.shotsFired : ℚ) * 100)

/-- `reset`: zero every counter for a new match. -/
def reset (_s : PlayerStats) (now : ℚ) : PlayerStats :=
  init now

end PlayerStats

/-- The statistics-mutating operations the server invokes on a
`PlayerStats` record (each constructor names the source method). -/
inductive StatOp where
  | addKill (timestamp : ℚ)
  | addDeath (timestamp : ℚ)
  | addAssist
  | addDamageDealt (amount : ℚ)
  | addDamageTaken (amount : ℚ)
  | addShotFired
  | addShotHit
  | reset (now : ℚ)
deriving Repr, DecidableEq

/-- Interpret one statistics operation. -/
def PlayerStats.applyOp (s : PlayerStats) : StatOp → PlayerStats
  | .addKill t => s.addKill t
  | .addDeath t => s.addDeath t
  | .addAssist => s.addAssist
  | .addDamageDealt a => s.addDamageDealt a
  | .addDamageTaken a => s.addDamageTaken a
  | .addShotFired => s.addShotFired
  | .addShotHit => s.addShotHit
  | .reset now => s.reset now

/-- Interpret a sequence of statistics operations from left to right. -/
def PlayerStats.applyOps (s : PlayerStats) (ops : List StatOp) : PlayerStats :=
  ops.foldl PlayerStats.applyOp s

lemma PlayerStats.applyOp_hit_le (s : PlayerStats) (op : StatOp)
    (h : s.shotsHit ≤ s.shotsFired) :
    (s.applyOp op).shotsHit ≤ (s.applyOp op).shotsFired := by
  cases op <;>
    simp_all [PlayerStats.applyOp, PlayerStats.addKill, PlayerStats.addDeath,
      PlayerStats.addAssist, PlayerStats.addDamageDealt, PlayerStats.addDamageTaken,
      PlayerStats.addShotFired, PlayerStats.addShotHit, PlayerStats.reset,
      PlayerStats.init]
  · split <;> simp_all
  · omega

lemma PlayerStats.applyOps_hit_le (s : PlayerStats) (ops : List StatOp)
    (h : s.shotsHit ≤ s.shotsFired) :
    (s.applyOps ops).shotsHit ≤ (s.applyOps ops).shotsFired := by
  induction ops generalizing s with
  | nil => simpa [PlayerStats.applyOps]
  | cons op ops ih =>
      simpa [PlayerStats.applyOps] using
        ih (s.applyOp op) (PlayerStats.applyOp_hit_le s op h)

lemma jsRound_le_of_le {q : ℚ} (h : q ≤ 100) : jsRound q ≤ 100 := by
  have h2 : q + 1 / 2 < ((101 : ℤ) : ℚ) := by push_cast; linarith
  have h3 := Int.floor_lt.mpr h2
  unfold jsRound
  omega

lemma PlayerStats.accuracy_le_of_hit_le (s : PlayerStats)
    (h : s.shotsHit ≤ s.shotsFired) : s.getAccuracy ≤ 100 := by
  unfold PlayerStats.getAccuracy
  split
  · norm_num
  · apply jsRound_le_of_le
    rename_i hf
    have hfpos : (0 : ℚ) < (s.shotsFired : ℚ) := by
      exact_mod_cast Nat.pos_of_ne_zero hf
    rw [div_mul_eq_mul_div, div_le_iff₀ hfpos]
    have : (s.shotsHit : ℚ) ≤ (s.shotsFired : ℚ) := by exact_mod_cast h
    nlinarith

/-- Projectile kinds (source: src/server/entities/projectile.ts). -/
inductive ProjectileKind where
  | bullet
  | pellet
  | rocket
deriving Repr, DecidableEq

/-- Weapon tags carried by damage events. -/
inductive Weapon where
  | bullet
  | pellet
  | rocket
  | explosion
deriving Repr, DecidableEq

/-- Pickup kinds (source: pickups system, `kinds = ['heal','haste','shield']`). -/
inductive PickupKind where
  | heal
  | haste
  | shield
deriving Repr, DecidableEq

/-- Player entity (source: src/server/entities/player.ts, class `Player`).
The `EffectManager` (purely visual) and the normalized knockback velocity
components `kb.vx`/`kb.vy` (irrational in general, never observed by a
verified claim) are not represented; of `kb` only the expiry `kb.until`
is kept as `kbUntil`. -/
structure Player where
  id : String
  name : String
  pos : Vec2
  vel : Vec2
  face : Vec2
  faceTarget : Option Vec2
  hp : ℚ
  cd : List (String × ℚ)
  kbUntil : Option ℚ
  iframeUntil : Option ℚ
  dashUntil : Option ℚ
  dashFactor : Option ℚ
  hasteUntil : Option ℚ
  hasteFactor : Option ℚ
  shieldUntil : Option ℚ
  stats : PlayerStats
  isDead : Bool
  diedAt : Option ℚ
deriving Repr, DecidableEq

namespace Player

/-- Constructor: `hp = 100`, empty cooldowns, not dead, fresh stats,
`faceTarget` initialized to the initial facing. -/
def init (id name : String) (initialPos initialVel initialFace : Vec2) (now : ℚ) : Player :=
  { id := id, name := name, pos := initialPos, vel := initialVel
    face := initialFace, faceTarget := some initialFace, hp := 100, cd := []
    kbUntil := none, iframeUntil := none, dashUntil := none, dashFactor := none
    hasteUntil := none, hasteFactor := none, shieldUntil := none
    stats := PlayerStats.init now, isDead := false, diedAt := none }

/-- `isAlive(): !this.isDead && this.hp > 0`. -/
def isAlive (p : Player) : Bool :=
  !p.isDead && p.hp > 0

/-- `isDeadPlayer(): Boolean(this.isDead) || this.hp <= 0`. -/
def isDeadPlayer (p : Player) : Bool :=
  p.isDead || p.hp ≤ 0

/-- `die()`: mark dead, zero hp, record the death in the stats. -/
def die (p : Player) (now : ℚ) : Player :=
  { p with isDead := true, diedAt := some now, hp := 0
           stats := p.stats.addDeath now }

/-- `takeDamage(amount)`: clamp hp at 0, record damage taken, die on the
transition to `hp ≤ 0`; returns the updated player and whether they just
died. Visual damage effects are omitted. -/
def takeDamage (p : Player) (now amount : ℚ) : Player × Bool :=
  let wasAlive := p.isAlive
  let p' := { p with hp := max 0 (p.hp - amount)
                     stats := p.stats.addDamageTaken amount }
  if wasAlive && p'.hp ≤ 0 then (p'.die now, true) else (p', false)

/-- `heal(amount)`: cap hp at 100 (no liveness check in the source). -/
def heal (p : Player) (amount : ℚ) : Player :=
  { p with hp := min 100 (p.hp + amount) }

/-- `respawn(newPos)`: reset to the alive state at the new position,
clearing temporary effects but keeping match stats. -/
def respawn (p : Player) (newPos : Vec2) : Player :=
  { p with pos := newPos, vel := ⟨0, 0⟩, face := ⟨1, 0⟩, faceTarget := some ⟨1, 0⟩
           hp := 100, cd := [], isDead := false, diedAt := none
           kbUntil := none, iframeUntil := none, dashUntil := none, dashFactor := none }

/-- `addKill()` delegates to the stats record. -/
def addKill (p : Player) (now : ℚ) : Player :=
  { p with stats := p.stats.addKill now }

/-- `addAssist()` delegates to the stats record. -/
def addAssist (p : Player) : Player :=
  { p with stats := p.stats.addAssist }

/-- `addShotFired()` delegates to the stats record. -/
def addShotFired (p : Player) : Player :=
  { p with stats := p.stats.addShotFired }

/-- `addShotHit()` delegates to the stats record. -/
def addShotHit (p : Player) : Player :=
  { p with stats := p.stats.addShotHit }

/-- `hasIframes(): Boolean(iframeUntil && iframeUntil > Date.now())`. -/
def hasIframes (p : Player) (now : ℚ) : Bool :=
  match p.iframeUntil with
  | some t => t > now
  | none => false

/-- `hasShield(): Boolean(shieldUntil && shieldUntil > Date.now())`. -/
def hasShield (p : Player) (now : ℚ) : Bool :=
  match p.shieldUntil with
  | some t => t > now
  | none => false

/-- `applyHaste(durationMs, factor)`. -/
def applyHaste (p : Player) (now durationMs factor : ℚ) : Player :=
  { p with hasteUntil := some (now + durationMs), hasteFactor := some factor }

/-- `applyShield(durationMs)`. -/
def applyShield (p : Player) (now durationMs : ℚ) : Player :=
  { p with shieldUntil := some (now + durationMs) }

/-- `applyKnockback(vx, vy, durationMs)`: only the expiry is represented. -/
def applyKnockback (p : Player) (now durationMs : ℚ) : Player :=
  { p with kbUntil := some (now + durationMs) }

/-- `getCurrentStreak()`. -/
def getCurrentStreak (p : Player) : ℕ :=
  p.stats.currentStreak

end Player

/-- Pickup record `{id, pos, kind}`. -/
structure Pickup where
  id : String
  pos : Vec2
  kind : PickupKind
deriving Repr, DecidableEq

/-- Events emitted on the event bus, one constructor per source event type
used by the verified systems. Fields that no claim observes and whose source
values are irrational (knockback vectors and magnitudes, projectile
velocities) are omitted from the corresponding constructors. -/
inductive Ev where
  | playerJoin (playerId name : String)
  | playerDie (playerId : String)
  | playerLeave (playerId : String)
  | playerAimed (playerId : String) (dir : Vec2)
  | playerMove (playerId : String) (pos : Vec2)
  | playerKill (killerId victimId : String) (assistIds : Option (List String))
  | projectileSpawned (id ownerId : String) (pos : Vec2) (kind : ProjectileKind)
  | projectileMoved (id : String) (pos : Vec2)
  | projectileDespawned (id : String)
  | projectileBounced (id : String) (normal : Vec2)
  | pickupSpawned (id : String) (pos : Vec2) (kind : PickupKind)
  | pickupCollected (id collector : String)
  | buffApplied (playerId : String) (kind : PickupKind) (duration : ℚ)
  | buffExpired (playerId : String) (kind : PickupKind)
  | damageApplied (targetId : String) (amount : ℚ) (source : Option String) (weapon : Weapon)
  | explosionSpawned (pos : Vec2) (radius damage : ℚ)
  | knockbackApplied (targetId : String) (source : Option String)
  | dashStarted (playerId : String) (duration : ℚ) (iframes : Bool)
  | dashEnded (playerId : String)
  | streakChanged (playerId : String) (streak previousStreak : ℕ)
  | feedEntry (killer victim : String) (weapon : Weapon) (assistIds : Option (List String))
  | scoreUpdate (playerId : String) (kills deaths assists : ℕ)
  | sessionStarted (playerId name : String)
  | matchCreated (id mode : String) (countdownMs : ℚ)
  | matchStarted (id : String) (durationMs : Option ℚ)
  | matchEnded (id : String) (endedAt : ℚ)
  | cmdMove (playerId : String) (dir : Vec2)
  | cmdCast (playerId skill : String)
  | cmdLeave (playerId : String)
  | cmdAim (playerId : String) (dir : Vec2)
  | cmdRespawn (playerId : String)
  | tickPre (dt : ℚ)
  | tickPost (dt : ℚ)
deriving Repr, DecidableEq

/-- The event-type string of an event (the `type` discriminator field). -/
def Ev.type : Ev → String
  | .playerJoin .. => "player:join"
  | .playerDie .. => "player:die"
  | .playerLeave .. => "player:leave"
  | .playerAimed .. => "player:aimed"
  | .playerMove .. => "player:move"
  | .playerKill .. => "player:kill"
  | .projectileSpawned .. => "projectile:spawned"
  | .projectileMoved .. => "projectile:moved"
  | .projectileDespawned .. => "projectile:despawned"
  | .projectileBounced .. => "projectile:bounced"
  | .pickupSpawned .. => "pickup:spawned"
  | .pickupCollected .. => "pickup:collected"
  | .buffApplied .. => "buff:applied"
  | .buffExpired .. => "buff:expired"
  | .damageApplied .. => "damage:applied"
  | .explosionSpawned .. => "explosion:spawned"
  | .knockbackApplied .. => "knockback:applied"
  | .dashStarted .. => "dash:started"
  | .dashEnded .. => "dash:ended"
  | .streakChanged .. => "streak:changed"
  | .feedEntry .. => "feed:entry"
  | .scoreUpdate .. => "score:update"
  | .sessionStarted .. => "session:started"
  | .matchCreated .. => "match:created"
  | .matchStarted .. => "match:started"
  | .matchEnded .. => "match:ended"
  | .cmdMove .. => "cmd:move"
  | .cmdCast .. => "cmd:cast"
  | .cmdLeave .. => "cmd:leave"
  | .cmdAim .. => "cmd:aim"
  | .cmdRespawn .. => "cmd:respawn"
  | .tickPre .. => "tick:pre"
  | .tickPost .. => "tick:post"

/-! ### Pickups system (source: pickups tick:post handler)

The handler has three sections: spawning, collection, buff expiration.
The collection and expiration sections are embedded below (the spawning
section draws fresh randomness and is not observed by any claim). -/

/-- Radius within which a player collects a pickup (`PLAYER_PICK_RADIUS`). -/
def PLAYER_PICK_RADIUS : ℚ := 20

/-- Apply one collected pickup to a player and produce the emitted events,
mirroring the body of the `if (d <= PLAYER_PICK_RADIUS)` branch after the
delete: emit `pickup:collected`, then apply heal (+35, cap 100) or haste
(5000 ms, factor 1.6) or shield (5000 ms) and emit `buff:applied`. -/
def applyPickup (now : ℚ) (p : Player) (pk : Pickup) : Player × List Ev :=
  match pk.kind with
  | .heal => (p.heal 35, [.pickupCollected pk.id p.id, .buffApplied p.id .heal 0])
  | .haste => (p.applyHaste now 5000 (8 / 5),
      [.pickupCollected pk.id p.id, .buffApplied p.id .haste 5000])
  | .shield => (p.applyShield now 5000,
      [.pickupCollected pk.id p.id, .buffApplied p.id .shield 5000])

/-- One player's sweep over the snapshot `[...World.pickups.values()]`:
every pickup within `PLAYER_PICK_RADIUS` is removed from the live list and
applied to the player. Note the source iterates over every player in
`World.players.values()` with no liveness check. -/
def collectForPlayer (now : ℚ) (p : Player) (pickups : List Pickup) :
    Player × List Pickup × List Ev :=
  pickups.foldl
    (fun acc pk =>
      let (p, remaining, evs) := acc
      if withinDist p.pos pk.pos PLAYER_PICK_RADIUS then
        let (p', evs') := applyPickup now p pk
        (p', remaining.filter (fun q => q.id ≠ pk.id), evs ++ evs')
      else
        (p, remaining, evs))
    (p, pickups, [])

/-- The collection section of the pickups `tick:post` handler: for every
player in map order, sweep the current pickups. -/
def collectionPass (now : ℚ) (players : List Player) (pickups : List Pickup) :
    List Player × List Pickup × List Ev :=
  players.foldl
    (fun acc p =>
      let (ps, pks, evs) := acc
      let (p', pks', evs') := collectForPlayer now p pks
      (ps ++ [p'], pks', evs ++ evs'))
    ([], pickups, [])

/-- The buff-expiration section of the pickups `tick:post` handler: clear
expired haste/shield and emit `buff:expired`. (JS truthiness of the numeric
`hasteUntil`/`shieldUntil` fields is modelled by their `Option` presence.) -/
def buffExpiryPass (now : ℚ) (players : List Player) : List Player × List Ev :=
  players.foldl
    (fun acc p =>
      let (ps, evs) := acc
      let (p, evs) :=
        match p.hasteUntil with
        | some t =>
            if t ≤ now then
              ({ p with hasteUntil := none, hasteFactor := none },
               evs ++ [Ev.buffExpired p.id .haste])
            else (p, evs)
        | none => (p, evs)
      let (p, evs) :=
        match p.shieldUntil with
        | some t =>
            if t ≤ now then
              ({ p with shieldUntil := none }, evs ++ [Ev.buffExpired p.id .shield])
            else (p, evs)
        | none => (p, evs)
      (ps ++ [p], evs))
    ([], [])

/-! ### Configuration defaults (source: src/server/config/defaults.ts) -/

namespace Config

/-- `combat.assistTimeWindow` (ms). -/
def assistTimeWindow : ℚ := 5000

/-- `combat.knockbackDuration` (ms). -/
def knockbackDuration : ℚ := 120

/-- `explosions.radius`. -/
def explosionRadius : ℚ := 80

/-- `explosions.damage`. -/
def explosionDamage : ℚ := 40

/-- `cooldowns.shoot` (ms). -/
def cooldownShoot : ℚ := 500

/-- `cooldowns.shotgun` (ms). -/
def cooldownShotgun : ℚ := 1000

/-- `cooldowns.rocket` (ms). -/
def cooldownRocket : ℚ := 1200

/-- `cooldowns.dash` (ms). -/
def cooldownDash : ℚ := 800

/-- `world.width` and `world.height`. -/
def worldWidth : ℚ := 2000

/-- Default world height. -/
def worldHeight : ℚ := 1200

end Config

/-! ### Player map operations

`World.players` is a JS `Map<string, Player>`; handlers retrieve an entry
and mutate the object in place. The list models the map in insertion order;
`updatePlayer` models the in-place mutation of one entry. -/

/-- `World.players.get(id)`. -/
def getPlayer (ps : List Player) (pid : String) : Option Player :=
  ps.find? (fun p => p.id == pid)

/-- In-place mutation of the entry with the given id. -/
def updatePlayer (ps : List Player) (pid : String) (f : Player → Player) : List Player :=
  ps.map (fun q => if q.id == pid then f q else q)

/-! ### Combat system (source: damage system, `tick:post` hit pass and the
`damage:applied` handler) -/

/-- One tracked damage record in `recentDamage` (`{source, timestamp,
amount, weapon}`). -/
structure DmgRec where
  source : String
  timestamp : ℚ
  amount : ℚ
  weapon : Option Weapon
deriving Repr, DecidableEq

/-- The payload of a `damage:applied` event (source: `TDamageAppliedEvent`;
`source` and `weapon` are optional fields). -/
structure DamageAppliedEvent where
  targetId : String
  amount : ℚ
  source : Option String
  weapon : Option Weapon
deriving Repr, DecidableEq

/-- `recentDamage.get(id) ?? []`. -/
def rdGet (rd : List (String × List DmgRec)) (pid : String) : List DmgRec :=
  match rd.find? (fun kv => kv.1 == pid) with
  | some kv => kv.2
  | none => []

/-- `recentDamage.set(id, hist)`. -/
def rdSet (rd : List (String × List DmgRec)) (pid : String) (h : List DmgRec) :
    List (String × List DmgRec) :=
  if rd.any (fun kv => kv.1 == pid) then
    rd.map (fun kv => if kv.1 == pid then (pid, h) else kv)
  else rd ++ [(pid, h)]

/-- `recentDamage.delete(id)`. -/
def rdDelete (rd : List (String × List DmgRec)) (pid : String) :
    List (String × List DmgRec) :=
  rd.filter (fun kv => kv.1 ≠ pid)

/-- Damage after shield protection: `t.hasShield() ? Math.ceil(e.amount * 0.5)
: e.amount`. -/
def effectiveDamage (t : Player) (now amount : ℚ) : ℚ :=
  if t.hasShield now then ((⌈amount * (1 / 2)⌉ : ℤ) : ℚ) else amount

/-- Assist-tracking section of the `damage:applied` handler: when the source
exists and differs from the target, push the record and drop entries older
than `assistTimeWindow`. -/
def trackAssistDamage (now : ℚ) (rd : List (String × List DmgRec))
    (e : DamageAppliedEvent) (dmg : ℚ) : List (String × List DmgRec) :=
  match e.source with
  | some src =>
      if src ≠ e.targetId then
        let hist := rdGet rd e.targetId ++ [⟨src, now, dmg, e.weapon⟩]
        rdSet rd e.targetId
          (hist.filter fun d => now - d.timestamp ≤ Config.assistTimeWindow)
      else rd
  | none => rd

/-- The insertion-ordered unique set `assistSources` built from the valid
damage records, excluding the killer and the victim. -/
def assistSourcesOf (validDamage : List DmgRec) (src targetId : String) : List String :=
  validDamage.foldl
    (fun acc d =>
      if d.source ≠ src ∧ d.source ≠ targetId ∧ d.source ∉ acc then acc ++ [d.source]
      else acc)
    []

/-- Kill-resolution block of the `damage:applied` handler (the `if (t.hp <= 0)`
body). Note the only guard on crediting the kill is `if (killer && e.source)`:
the killer is whatever player record the source id resolves to, with no
comparison against the target. -/
def killResolution (now : ℚ) (players : List Player)
    (rd : List (String × List DmgRec)) (e : DamageAppliedEvent) :
    List Player × List (String × List DmgRec) × List Ev :=
  let victim? := getPlayer players e.targetId
  let killer? := match e.source with | some s => getPlayer players s | none => none
  let (players, evs) :=
    match victim? with
    | none => (players, ([] : List Ev))
    | some _victim =>
      let validDamage := (rdGet rd e.targetId).filter
        (fun d => now - d.timestamp ≤ Config.assistTimeWindow)
      let (players, evs) :=
        match killer?, e.source with
        | some killer, some src =>
            let weaponType := e.weapon.getD .bullet
            let previousStreak := killer.getCurrentStreak
            let players := updatePlayer players src (fun q => q.addKill now)
            let newStreak := ((getPlayer players src).map Player.getCurrentStreak).getD 0
            let evs := [Ev.streakChanged src newStreak previousStreak]
            let assistSources := assistSourcesOf validDamage src e.targetId
            let (players, assistIds) := assistSources.foldl
              (fun acc aid =>
                match getPlayer acc.1 aid with
                | some _ => (updatePlayer acc.1 aid Player.addAssist, acc.2 ++ [aid])
                | none => acc)
              (players, ([] : List String))
            let assistsOpt := if assistIds.length > 0 then some assistIds else none
            let evs := evs ++ [Ev.playerKill src e.targetId assistsOpt,
                               Ev.feedEntry src e.targetId weaponType assistsOpt]
            let evs := evs ++
              (match getPlayer players src with
               | some k => [Ev.scoreUpdate src k.stats.kills k.stats.deaths k.stats.assists]
               | none => [])
            let evs := evs ++ assistIds.foldl
              (fun acc aid =>
                match getPlayer players aid with
                | some ap => acc ++ [Ev.scoreUpdate aid ap.stats.kills ap.stats.deaths ap.stats.assists]
                | none => acc)
              []
            (players, evs)
        | _, _ => (players, ([] : List Ev))
      let evs := evs ++
        (match getPlayer players e.targetId with
         | some v => [Ev.scoreUpdate e.targetId v.stats.kills v.stats.deaths v.stats.assists]
         | none => [])
      (players, evs)
  let players := updatePlayer players e.targetId
    (fun q => { q with isDead := true, diedAt := some now, hp := 0 })
  let rd := rdDelete rd e.targetId
  (players, rd, evs ++ [Ev.playerDie e.targetId])

/-- The `damage:applied` handler. Returns the updated player map, the
updated `recentDamage` map, and the events emitted by the handler itself. -/
def onDamageApplied (now : ℚ) (players : List Player)
    (rd : List (String × List DmgRec)) (e : DamageAppliedEvent) :
    List Player × List (String × List DmgRec) × List Ev :=
  match getPlayer players e.targetId with
  | none => (players, rd, [])
  | some t0 =>
    if t0.isDeadPlayer || t0.hasIframes now then (players, rd, [])
    else
      let dmg := effectiveDamage t0 now e.amount
      let players := updatePlayer players e.targetId (fun q => (q.takeDamage now dmg).1)
      let rd := trackAssistDamage now rd e dmg
      let (players, evs) :=
        match e.source with
        | some src =>
            match getPlayer players src with
            | some _s =>
                (updatePlayer players e.targetId
                   (fun q => { q with kbUntil := some (now + Config.knockbackDuration) }),
                 [Ev.knockbackApplied e.targetId (some src)])
            | none => (players, ([] : List Ev))
        | none => (players, ([] : List Ev))
      match getPlayer players e.targetId with
      | some t1 =>
          if t1.hp ≤ 0 then
            let (players, rd, evs2) := killResolution now players rd e
            (players, rd, evs ++ evs2)
          else (players, rd, evs)
      | none => (players, rd, evs)

/-- Explosion area-of-effect loop of the `tick:post` hit pass: for every
player of the world map in order (skipping dead ones, with no owner
exclusion), if within the radius, emit `damage:applied` — dispatched
synchronously to the handler above — then apply knockback and emit
`knockback:applied`. -/
def explosionAoE (now : ℚ) (players : List Player)
    (rd : List (String × List DmgRec)) (pos : Vec2) (radius damage : ℚ)
    (owner : String) :
    (List Player × List (String × List DmgRec)) × List Ev :=
  (players.map (fun p => p.id)).foldl
    (fun acc pid =>
      let ((players, rd), evs) := acc
      match getPlayer players pid with
      | none => ((players, rd), evs)
      | some t =>
        if t.isDeadPlayer then ((players, rd), evs)
        else if withinDist t.pos pos radius then
          let evs := evs ++ [Ev.damageApplied t.id damage (some owner) .explosion]
          let (players, rd, evs') :=
            onDamageApplied now players rd ⟨t.id, damage, some owner, some .explosion⟩
          let evs := evs ++ evs'
          let players := updatePlayer players t.id
            (fun q => q.applyKnockback now Config.knockbackDuration)
          ((players, rd), evs ++ [Ev.knockbackApplied t.id (some owner)])
        else ((players, rd), evs))
    ((players, rd), [])

/-! ### Projectile entity (source: src/server/entities/projectile.ts) -/

/-- JS `value || default` for an optional numeric field: the default is used
when the field is absent or zero (0 is falsy). -/
def orDefault (o : Option ℚ) (d : ℚ) : ℚ :=
  match o with
  | some v => if v = 0 then d else v
  | none => d

/-- Projectile record (class `Projectile`). -/
structure Projectile where
  id : String
  owner : String
  kind : ProjectileKind
  pos : Vec2
  vel : Vec2
  hitRadius : ℚ
  damage : ℚ
  lifetime : ℚ
  spawnTime : ℚ
  bounceCount : ℕ
  maxBounces : ℕ
  damageDropoff : ℚ
  velocityRetention : ℚ
deriving Repr, DecidableEq

namespace Projectile

/-- Constructor: kind-specific defaults (bullet: damage 25, lifetime 4000 ms,
3 bounces, dropoff 0.8, retention 0.9; pellet: 17, 3000 ms, 2, 0.7, 0.85;
rocket: 40, 4000 ms, no bounces). -/
def init (id owner : String) (pos vel : Vec2) (kind : ProjectileKind)
    (hitRadius damage lifetime : Option ℚ) (now : ℚ) : Projectile :=
  match kind with
  | .bullet =>
      { id := id, owner := owner, kind := kind, pos := pos, vel := vel
        hitRadius := orDefault hitRadius 20, damage := orDefault damage 25
        lifetime := orDefault lifetime 4000, spawnTime := now
        bounceCount := 0, maxBounces := 3
        damageDropoff := 4 / 5, velocityRetention := 9 / 10 }
  | .pellet =>
      { id := id, owner := owner, kind := kind, pos := pos, vel := vel
        hitRadius := orDefault hitRadius 20, damage := orDefault damage 17
        lifetime := orDefault lifetime 3000, spawnTime := now
        bounceCount := 0, maxBounces := 2
        damageDropoff := 7 / 10, velocityRetention := 17 / 20 }
  | .rocket =>
      { id := id, owner := owner, kind := kind, pos := pos, vel := vel
        hitRadius := orDefault hitRadius 28, damage := orDefault damage 40
        lifetime := orDefault lifetime 4000, spawnTime := now
        bounceCount := 0, maxBounces := 0
        damageDropoff := 1, velocityRetention := 1 }

/-- `update(deltaTime)`: advance the position by `vel * dt`. -/
def update (pr : Projectile) (deltaTime : ℚ) : Projectile :=
  { pr with pos := ⟨pr.pos.x + pr.vel.x * deltaTime, pr.pos.y + pr.vel.y * deltaTime⟩ }

/-- `bounce(normal)`: rockets never bounce; a projectile at its bounce limit
does not bounce (and is left unmodified); otherwise reflect the velocity
across the normal, apply velocity retention and damage dropoff, and
increment the bounce counter. Returns the (possibly updated) projectile and
whether the bounce happened. -/
def bounce (pr : Projectile) (normal : Vec2) : Projectile × Bool :=
  if pr.kind = .rocket then (pr, false)
  else if pr.maxBounces ≤ pr.bounceCount then (pr, false)
  else
    let dot := pr.vel.x * normal.x + pr.vel.y * normal.y
    let reflected : Vec2 := ⟨pr.vel.x - 2 * dot * normal.x, pr.vel.y - 2 * dot * normal.y⟩
    let retained : Vec2 := ⟨reflected.x * pr.velocityRetention, reflected.y * pr.velocityRetention⟩
    ({ pr with vel := retained, damage := pr.damage * pr.damageDropoff
               bounceCount := pr.bounceCount + 1 },
     true)

/-- `shouldExplodeOnCollision()`. -/
def shouldExplodeOnCollision (pr : Projectile) : Bool :=
  pr.kind = .rocket

/-- `isExpired(currentTime)`: `currentTime - spawnTime >= lifetime`. -/
def isExpired (pr : Projectile) (currentTime : ℚ) : Bool :=
  currentTime - pr.spawnTime ≥ pr.lifetime

/-- `isOutOfBounds(worldWidth, worldHeight)`. -/
def isOutOfBounds (pr : Projectile) (worldWidth worldHeight : ℚ) : Bool :=
  pr.pos.x < 0 || pr.pos.x > worldWidth || pr.pos.y < 0 || pr.pos.y > worldHeight

/-- `getAge(currentTime)`. -/
def getAge (pr : Projectile) (currentTime : ℚ) : ℚ :=
  currentTime - pr.spawnTime

/-- `isWithinHitRadius(point)`: Euclidean distance at most `hitRadius`. -/
def isWithinHitRadius (pr : Projectile) (point : Vec2) : Bool :=
  withinDist pr.pos point pr.hitRadius

/-- `getCurrentDamage()`. -/
def getCurrentDamage (pr : Projectile) : ℚ :=
  pr.damage

/-- `canBounce()`. -/
def canBounce (pr : Projectile) : Bool :=
  pr.bounceCount < pr.maxBounces && pr.kind ≠ .rocket

end Projectile

/-! ### Movement system, projectile phase (source: src/server/systems/movement.ts) -/

/-- Static rectangular obstacle `{type:'rect', x, y, w, h}`. -/
structure Obstacle where
  x : ℚ
  y : ℚ
  w : ℚ
  h : ℚ
deriving Repr, DecidableEq

/-- World bounds rectangle. -/
structure Bounds where
  w : ℚ
  h : ℚ
deriving Repr, DecidableEq

/-- `checkPointInRect` (edges inclusive). -/
def checkPointInRect (p : Vec2) (ob : Obstacle) : Bool :=
  ob.x ≤ p.x && p.x ≤ ob.x + ob.w && ob.y ≤ p.y && p.y ≤ ob.y + ob.h

/-- `collideProjectile`: on the first obstacle containing the projectile
position, pick the smallest-penetration axis, nudge the position just
outside the rectangle (by 0.01) and return the wall normal. -/
def collideProjectile (obstacles : List Obstacle) (pr : Projectile) :
    Projectile × Option Vec2 :=
  match obstacles.find? (fun ob => checkPointInRect pr.pos ob) with
  | none => (pr, none)
  | some ob =>
      let leftPen := |pr.pos.x - ob.x|
      let rightPen := |ob.x + ob.w - pr.pos.x|
      let topPen := |pr.pos.y - ob.y|
      let botPen := |ob.y + ob.h - pr.pos.y|
      let minPen := min (min (min leftPen rightPen) topPen) botPen
      if minPen = leftPen then
        ({ pr with pos := ⟨ob.x - 1 / 100, pr.pos.y⟩ }, some ⟨-1, 0⟩)
      else if minPen = rightPen then
        ({ pr with pos := ⟨ob.x + ob.w + 1 / 100, pr.pos.y⟩ }, some ⟨1, 0⟩)
      else if minPen = topPen then
        ({ pr with pos := ⟨pr.pos.x, ob.y - 1 / 100⟩ }, some ⟨0, -1⟩)
      else
        ({ pr with pos := ⟨pr.pos.x, ob.y + ob.h + 1 / 100⟩ }, some ⟨0, 1⟩)

/-- One projectile's step of the `tick:pre` handler: integrate, then expire
(rockets explode on expiry), then resolve obstacle collision (rockets
explode; others bounce, despawning when the bounce fails), then despawn when
out of bounds, otherwise report the movement. `none` means the projectile is
pushed onto `projectilesToRemove`. -/
def stepProjectile (now dt : ℚ) (bounds : Bounds) (obstacles : List Obstacle)
    (pr : Projectile) : Option Projectile × List Ev :=
  let pr := pr.update dt
  if pr.isExpired now then
    (none,
     if pr.kind = .rocket then
       [Ev.explosionSpawned pr.pos Config.explosionRadius Config.explosionDamage]
     else [])
  else
    let (pr, hit) := collideProjectile obstacles pr
    match hit with
    | some n =>
        if pr.shouldExplodeOnCollision then
          (none, [Ev.explosionSpawned pr.pos Config.explosionRadius Config.explosionDamage])
        else
          let (pr, bounced) := pr.bounce n
          if bounced then
            if pr.isOutOfBounds bounds.w bounds.h then
              (none, [Ev.projectileBounced pr.id n])
            else
              (some pr, [Ev.projectileBounced pr.id n, Ev.projectileMoved pr.id pr.pos])
          else (none, [])
    | none =>
        if pr.isOutOfBounds bounds.w bounds.h then (none, [])
        else (some pr, [Ev.projectileMoved pr.id pr.pos])

/-- The projectile phase of the `tick:pre` handler over the whole projectile
map; despawn events are emitted at the end, in removal order. -/
def projectilesTickPre (now dt : ℚ) (bounds : Bounds) (obstacles : List Obstacle)
    (projectiles : List Projectile) : List Projectile × List Ev :=
  let (survivors, removed, evs) := projectiles.foldl
    (fun acc pr =>
      let (survivors, removed, evs) := acc
      match stepProjectile now dt bounds obstacles pr with
      | (some pr', evs') => (survivors ++ [pr'], removed, evs ++ evs')
      | (none, evs') => (survivors, removed ++ [pr.id], evs ++ evs'))
    ([], [], [])
  (survivors, evs ++ removed.map Ev.projectileDespawned)

/-- The `tick:post` projectile-hit pass of the damage system: for every
projectile of the snapshot, for every live non-owner player within the hit
radius, consume the projectile; rockets trigger the explosion
area-of-effect, bullets and pellets apply their current damage to the hit
player (dispatched synchronously to the `damage:applied` handler) and credit
the shooter with a hit. -/
def combatTickPost (now : ℚ) (players : List Player)
    (projectiles : List Projectile) (rd : List (String × List DmgRec)) :
    (List Player × List Projectile × List (String × List DmgRec)) × List Ev :=
  projectiles.foldl
    (fun acc pr =>
      (players.map (fun p => p.id)).foldl
        (fun acc2 pid =>
          let ((players, projs, rd), evs) := acc2
          match getPlayer players pid with
          | none => acc2
          | some p =>
            if p.id == pr.owner || p.isDeadPlayer then acc2
            else if pr.isWithinHitRadius p.pos then
              let projs := projs.filter (fun q => q.id ≠ pr.id)
              let evs := evs ++ [Ev.projectileDespawned pr.id]
              if pr.shouldExplodeOnCollision then
                let pos := pr.pos
                let evs := evs ++
                  [Ev.explosionSpawned pos Config.explosionRadius Config.explosionDamage]
                let ((players, rd), evs') :=
                  explosionAoE now players rd pos Config.explosionRadius
                    Config.explosionDamage pr.owner
                ((players, projs, rd), evs ++ evs')
              else
                let dmg := pr.getCurrentDamage
                let weaponType : Weapon := if pr.kind = .pellet then .pellet else .bullet
                let evs := evs ++ [Ev.damageApplied p.id dmg (some pr.owner) weaponType]
                let (players, rd, evs') :=
                  onDamageApplied now players rd ⟨p.id, dmg, some pr.owner, some weaponType⟩
                let evs := evs ++ evs'
                let players :=
                  match getPlayer players pr.owner with
                  | some _ => updatePlayer players pr.owner Player.addShotHit
                  | none => players
                ((players, projs, rd), evs)
            else acc2)
        acc)
    ((players, projectiles, rd), [])

/-! ### Projectile bounce and lifecycle lemmas -/

lemma bounce_fail (pr : Projectile) (n : Vec2)
    (h : pr.kind = .rocket ∨ pr.maxBounces ≤ pr.bounceCount) :
    pr.bounce n = (pr, false) := by
  unfold Projectile.bounce
  rcases h with h | h
  · rw [if_pos h]
  · by_cases hr : pr.kind = .rocket
    · rw [if_pos hr]
    · rw [if_neg hr, if_pos h]

lemma bounce_succeed (pr : Projectile) (n : Vec2)
    (hk : pr.kind ≠ .rocket) (hc : pr.bounceCount < pr.maxBounces) :
    pr.bounce n =
      ({ pr with
          vel := ⟨(pr.vel.x - 2 * (pr.vel.x * n.x + pr.vel.y * n.y) * n.x) * pr.velocityRetention,
                  (pr.vel.y - 2 * (pr.vel.x * n.x + pr.vel.y * n.y) * n.y) * pr.velocityRetention⟩
          damage := pr.damage * pr.damageDropoff
          bounceCount := pr.bounceCount + 1 }, true) := by
  unfold Projectile.bounce
  rw [if_neg hk, if_neg (by omega)]

lemma bounce_count_le (pr : Projectile) (n : Vec2)
    (h : pr.bounceCount ≤ pr.maxBounces) :
    (pr.bounce n).1.bounceCount ≤ (pr.bounce n).1.maxBounces := by
  by_cases hr : pr.kind = .rocket
  · rw [bounce_fail pr n (Or.inl hr)]
    exact h
  · by_cases hc : pr.bounceCount < pr.maxBounces
    · rw [bounce_succeed pr n hr hc]
      simpa using hc
    · rw [bounce_fail pr n (Or.inr (by omega))]
      exact h

lemma bounce_fields (pr : Projectile) (n : Vec2) :
    (pr.bounce n).1.spawnTime = pr.spawnTime ∧
    (pr.bounce n).1.lifetime = pr.lifetime ∧
    (pr.bounce n).1.kind = pr.kind := by
  by_cases hr : pr.kind = .rocket
  · rw [bounce_fail pr n (Or.inl hr)]
    exact ⟨rfl, rfl, rfl⟩
  · by_cases hc : pr.bounceCount < pr.maxBounces
    · rw [bounce_succeed pr n hr hc]
      exact ⟨rfl, rfl, rfl⟩
    · rw [bounce_fail pr n (Or.inr (by omega))]
      exact ⟨rfl, rfl, rfl⟩

lemma collideProjectile_fields (obstacles : List Obstacle) (pr : Projectile) :
    (collideProjectile obstacles pr).1.spawnTime = pr.spawnTime ∧
    (collideProjectile obstacles pr).1.lifetime = pr.lifetime ∧
    (collideProjectile obstacles pr).1.bounceCount = pr.bounceCount ∧
    (collideProjectile obstacles pr).1.maxBounces = pr.maxBounces ∧
    (collideProjectile obstacles pr).1.kind = pr.kind := by
  unfold collideProjectile
  split
  · exact ⟨rfl, rfl, rfl, rfl, rfl⟩
  · dsimp only
    split_ifs <;> exact ⟨rfl, rfl, rfl, rfl, rfl⟩

lemma stepProjectile_survivor (now dt : ℚ) (bounds : Bounds)
    (obstacles : List Obstacle) (pr pr' : Projectile)
    (hinv : pr.bounceCount ≤ pr.maxBounces)
    (h : (stepProjectile now dt bounds obstacles pr).1 = some pr') :
    pr'.getAge now ≤ pr'.lifetime ∧ pr'.bounceCount ≤ pr'.maxBounces := by
  unfold stepProjectile at h
  by_cases hexp : (pr.update dt).isExpired now = true
  · rw [if_pos hexp] at h
    cases h
  · rw [if_neg hexp] at h
    have hage : now - (pr.update dt).spawnTime < (pr.update dt).lifetime := by
      unfold Projectile.isExpired at hexp
      simpa using lt_of_not_ge (by simpa using hexp)
    have hfields := collideProjectile_fields obstacles (pr.update dt)
    rcases hco : collideProjectile obstacles (pr.update dt) with ⟨prc, hit⟩
    rw [hco] at h hfields
    obtain ⟨hcs, hcl, hcc, hcm, hck⟩ := hfields
    dsimp only at h hcs hcl hcc hcm hck
    have hupds : (pr.update dt).spawnTime = pr.spawnTime := rfl
    have hupdl : (pr.update dt).lifetime = pr.lifetime := rfl
    have hupdc : (pr.update dt).bounceCount = pr.bounceCount := rfl
    have hupdm : (pr.update dt).maxBounces = pr.maxBounces := rfl
    cases hit with
    | some n =>
        dsimp only at h
        by_cases hex : prc.shouldExplodeOnCollision = true
        · rw [if_pos hex] at h
          cases h
        · rw [if_neg hex] at h
          have hbf := bounce_fields prc n
          have hbc := bounce_count_le prc n (by rw [hcc, hcm, hupdc, hupdm]; exact hinv)
          rcases hbo : prc.bounce n with ⟨prb, bounced⟩
          rw [hbo] at h hbf hbc
          obtain ⟨hbs, hbl, _⟩ := hbf
          dsimp only at h hbs hbl hbc
          cases bounced with
          | false =>
              simp only [Bool.false_eq_true, if_false] at h
              cases h
          | true =>
              simp only [if_true] at h
              by_cases hob : prb.isOutOfBounds bounds.w bounds.h = true
              · rw [if_pos hob] at h
                cases h
              · rw [if_neg hob] at h
                simp only [Option.some_inj] at h
                subst h
                refine ⟨?_, hbc⟩
                unfold Projectile.getAge
                rw [hbs, hbl, hcs, hcl]
                linarith
    | none =>
        dsimp only at h
        by_cases hob : prc.isOutOfBounds bounds.w bounds.h = true
        · rw [if_pos hob] at h
          cases h
        · rw [if_neg hob] at h
          simp only [Option.some_inj] at h
          subst h
          refine ⟨?_, by rw [hcc, hcm, hupdc, hupdm]; exact hinv⟩
          unfold Projectile.getAge
          rw [hcs, hcl]
          linarith

lemma stepProjectile_failedBounce_despawns (now dt : ℚ) (bounds : Bounds)
    (obstacles : List Obstacle) (pr pr2 : Projectile) (n : Vec2)
    (hexp : (pr.update dt).isExpired now = false)
    (hcol : collideProjectile obstacles (pr.update dt) = (pr2, some n))
    (hrk : pr2.shouldExplodeOnCollision = false)
    (hbn : (pr2.bounce n).2 = false) :
    (stepProjectile now dt bounds obstacles pr).1 = none ∧
    (stepProjectile now dt bounds obstacles pr).2 = [] := by
  unfold stepProjectile
  rw [if_neg (by simp [hexp]), hcol]
  simp [hrk, hbn]

/-- C8: projectile bounce behaviour and invariants: a bounce attempted by a
rocket or past the bounce limit fails with the projectile unmodified, and
the movement step then despawns it; a successful bounce reflects the
velocity across the normal, scales it by `velocityRetention`, multiplies the
damage by `damageDropoff` and increments `bounceCount`; `bounceCount ≤
maxBounces` is preserved, every projectile surviving a movement step
satisfies `age ≤ lifetime`, and a default pellet (damage 17, dropoff 0.7)
that bounces twice carries damage 833/100 = 8.33. -/
theorem projectile_bounce_lifecycle :
    (∀ (pr : Projectile) (n : Vec2),
      (pr.kind = .rocket ∨ pr.maxBounces ≤ pr.bounceCount) → pr.bounce n = (pr, false)) ∧
    (∀ (pr : Projectile) (n : Vec2), pr.kind ≠ .rocket → pr.bounceCount < pr.maxBounces →
      pr.bounce n =
        ({ pr with
            vel := ⟨(pr.vel.x - 2 * (pr.vel.x * n.x + pr.vel.y * n.y) * n.x) * pr.velocityRetention,
                    (pr.vel.y - 2 * (pr.vel.x * n.x + pr.vel.y * n.y) * n.y) * pr.velocityRetention⟩
            damage := pr.damage * pr.damageDropoff
            bounceCount := pr.bounceCount + 1 }, true)) ∧
    (∀ (pr : Projectile) (n : Vec2), pr.bounceCount ≤ pr.maxBounces →
      (pr.bounce n).1.bounceCount ≤ (pr.bounce n).1.maxBounces) ∧
    (∀ (now dt : ℚ) (bounds : Bounds) (obstacles : List Obstacle) (pr pr' : Projectile),
      pr.bounceCount ≤ pr.maxBounces →
      (stepProjectile now dt bounds obstacles pr).1 = some pr' →
      pr'.getAge now ≤ pr'.lifetime ∧ pr'.bounceCount ≤ pr'.maxBounces) ∧
    (∀ (now dt : ℚ) (bounds : Bounds) (obstacles : List Obstacle)
        (pr pr2 : Projectile) (n : Vec2),
      (pr.update dt).isExpired now = false →
      collideProjectile obstacles (pr.update dt) = (pr2, some n) →
      pr2.shouldExplodeOnCollision = false →
      (pr2.bounce n).2 = false →
      (stepProjectile now dt bounds obstacles pr).1 = none) ∧
    (∀ (pos vel n1 n2 : Vec2) (id owner : String) (now : ℚ),
      (((Projectile.init id owner pos vel .pellet none none none now).bounce n1).1.bounce
          n2).1.damage = 833 / 100) := by
  refine ⟨bounce_fail, bounce_succeed, bounce_count_le,
    fun now dt bounds obstacles pr pr' h1 h2 =>
      stepProjectile_survivor now dt bounds obstacles pr pr' h1 h2,
    fun now dt bounds obstacles pr pr2 n h1 h2 h3 h4 =>
      (stepProjectile_failedBounce_despawns now dt bounds obstacles pr pr2 n h1 h2 h3 h4).1,
    ?_⟩
  intro pos vel n1 n2 id owner now
  rw [bounce_succeed _ n1 (by simp [Projectile.init]) (by simp [Projectile.init])]
  rw [bounce_succeed _ n2 (by simp [Projectile.init]) (by simp [Projectile.init])]
  simp [Projectile.init, orDefault]
  norm_num

/-- A concrete default pellet used in witnesses. -/
def witnessPellet : Projectile :=
  Projectile.init "pp" "w" ⟨0, 0⟩ ⟨3, 4⟩ .pellet none none none 0

/-- A concrete default rocket used in witnesses. -/
def witnessRocket : Projectile :=
  Projectile.init "pr" "w" ⟨0, 0⟩ ⟨3, 4⟩ .rocket none none none 0

/-- Witness for the C8 theorem: a concrete pellet bounces successfully off
a left-facing wall normal (all hypotheses discharged by evaluation), a
concrete rocket fails to bounce, and the double-bounce damage evaluates. -/
theorem projectile_bounce_lifecycle_witness :
    witnessPellet.bounce ⟨-1, 0⟩ =
      ({ witnessPellet with
          vel := ⟨(witnessPellet.vel.x -
                    2 * (witnessPellet.vel.x * (-1) + witnessPellet.vel.y * 0) * (-1)) *
                      witnessPellet.velocityRetention,
                  (witnessPellet.vel.y -
                    2 * (witnessPellet.vel.x * (-1) + witnessPellet.vel.y * 0) * 0) *
                      witnessPellet.velocityRetention⟩
          damage := witnessPellet.damage * witnessPellet.damageDropoff
          bounceCount := witnessPellet.bounceCount + 1 }, true) ∧
    witnessRocket.bounce ⟨-1, 0⟩ = (witnessRocket, false) ∧
    (((Projectile.init "pp" "w" ⟨0, 0⟩ ⟨3, 4⟩ .pellet none none none 0).bounce
        ⟨-1, 0⟩).1.bounce ⟨0, 1⟩).1.damage = 833 / 100 :=
  ⟨projectile_bounce_lifecycle.2.1 witnessPellet ⟨-1, 0⟩ (by decide) (by decide),
   projectile_bounce_lifecycle.1 witnessRocket ⟨-1, 0⟩ (Or.inl rfl),
   projectile_bounce_lifecycle.2.2.2.2.2 ⟨0, 0⟩ ⟨3, 4⟩ ⟨-1, 0⟩ ⟨0, 1⟩ "pp" "w" 0⟩

/-! ### Spawn manager (source: src/server/core/spawn-manager.ts) and
cmd:join handlers (source: ws-server.ts and validation.ts) -/

/-- Spawn margins `{left, right, top, bottom}`. -/
structure SpawnMargins where
  left : ℚ
  right : ℚ
  top : ℚ
  bottom : ℚ
deriving Repr, DecidableEq

/-- Spawn-manager configuration. -/
structure SpawnConfig where
  margins : SpawnMargins
  minDistanceFromPlayers : ℚ
  maxAttempts : ℕ
deriving Repr, DecidableEq

/-- The player spawn manager of ws-server.ts (margins 80, min distance 120). -/
def playerSpawnConfig : SpawnConfig :=
  ⟨⟨80, 80, 80, 80⟩, 120, 64⟩

/-- `isWithinSpawnBounds(pos)`. -/
def isWithinSpawnBounds (cfg : SpawnConfig) (bounds : Bounds) (pos : Vec2) : Bool :=
  cfg.margins.left ≤ pos.x && pos.x ≤ bounds.w - cfg.margins.right &&
  cfg.margins.top ≤ pos.y && pos.y ≤ bounds.h - cfg.margins.bottom

/-- `getRandomSafePosition()`: `r1`, `r2` stand for the two `Math.random()`
draws in [0, 1). -/
def getRandomSafePosition (cfg : SpawnConfig) (bounds : Bounds) (r1 r2 : ℚ) : Vec2 :=
  ⟨cfg.margins.left + r1 * (bounds.w - cfg.margins.left - cfg.margins.right),
   cfg.margins.top + r2 * (bounds.h - cfg.margins.top - cfg.margins.bottom)⟩

/-- `isPositionBlocked(pos)`: inside any obstacle rect, edges inclusive. -/
def isPositionBlocked (obstacles : List Obstacle) (pos : Vec2) : Bool :=
  obstacles.any (fun ob =>
    ob.x ≤ pos.x && pos.x ≤ ob.x + ob.w && ob.y ≤ pos.y && pos.y ≤ ob.y + ob.h)

/-- The comparison `getDistanceToNearestPlayer(pos) < minDistance` of the
source: the nearest-player distance is 0 when there are no players, else the
minimum of the Euclidean distances to all players (the comparison is
equivalent to some player being closer than `minDistance`). -/
def nearestPlayerCloserThan (players : List Player) (pos : Vec2) (minDistance : ℚ) : Bool :=
  if players.isEmpty then decide (0 < minDistance)
  else players.any (fun p => closerThan pos p.pos minDistance)

/-- The comparison value `getDistanceToNearestPlayer(pos)` in squared form
(0 when there are no players), used for the fallback best-score search. -/
def nearestDist2 (players : List Player) (pos : Vec2) : ℚ :=
  match players.map (fun p => dist2 pos p.pos) with
  | [] => 0
  | d :: ds => ds.foldl min d

/-- The rejection-sampling loop of `findSafeSpawnPosition` (up to
`maxAttempts` candidates, each drawn from the `samples` oracle; a candidate
is accepted when it is unblocked and not too close to any player). -/
def spawnAttemptLoop (cfg : SpawnConfig) (bounds : Bounds)
    (obstacles : List Obstacle) (players : List Player)
    (samples : List (ℚ × ℚ)) : Option Vec2 :=
  (List.range cfg.maxAttempts).findSome?
    (fun i =>
      let r := samples.getD i (0, 0)
      let pos := getRandomSafePosition cfg bounds r.1 r.2
      if isPositionBlocked obstacles pos then none
      else if nearestPlayerCloserThan players pos cfg.minDistanceFromPlayers then none
      else some pos)

/-- `getEmergencyFallbackPosition()`: center, four margin-inset corners,
last resort center even if blocked. -/
def getEmergencyFallbackPosition (cfg : SpawnConfig) (bounds : Bounds)
    (obstacles : List Obstacle) : Vec2 :=
  let spots : List Vec2 :=
    [⟨bounds.w / 2, bounds.h / 2⟩,
     ⟨cfg.margins.left + 50, cfg.margins.top + 50⟩,
     ⟨bounds.w - cfg.margins.right - 50, cfg.margins.top + 50⟩,
     ⟨cfg.margins.left + 50, bounds.h - cfg.margins.bottom - 50⟩,
     ⟨bounds.w - cfg.margins.right - 50, bounds.h - cfg.margins.bottom - 50⟩]
  match spots.find? (fun s => !(isPositionBlocked obstacles s)) with
  | some s => s
  | none => ⟨bounds.w / 2, bounds.h / 2⟩

/-- `findBestFallbackPosition()`: among 16 further samples pick the
unblocked one farthest from any player (score −1 modeled as `none`,
distances compared in squared form); if none is unblocked, the emergency
fallback. -/
def findBestFallbackPosition (cfg : SpawnConfig) (bounds : Bounds)
    (obstacles : List Obstacle) (players : List Player)
    (fallbackSamples : List (ℚ × ℚ)) : Vec2 :=
  let best := (List.range 16).foldl
    (fun best i =>
      let r := fallbackSamples.getD i (0, 0)
      let pos := getRandomSafePosition cfg bounds r.1 r.2
      if isPositionBlocked obstacles pos then best
      else
        let d2 := nearestDist2 players pos
        match best.2 with
        | none => (pos, some d2)
        | some s => if d2 > s then (pos, some d2) else best)
    ((⟨100, 100⟩ : Vec2), (none : Option ℚ))
  match best.2 with
  | none => getEmergencyFallbackPosition cfg bounds obstacles
  | some _ => best.1

/-- `findSafeSpawnPosition()`. -/
def findSafeSpawnPosition (cfg : SpawnConfig) (bounds : Bounds)
    (obstacles : List Obstacle) (players : List Player)
    (samples fallbackSamples : List (ℚ × ℚ)) : Vec2 :=
  match spawnAttemptLoop cfg bounds obstacles players samples with
  | some pos => pos
  | none => findBestFallbackPosition cfg bounds obstacles players fallbackSamples

/-- `adjustSpawnPointsToMargins(list)`: clamp into the inner rectangle. -/
def adjustSpawnPointsToMargins (cfg : SpawnConfig) (bounds : Bounds)
    (pts : List Vec2) : List Vec2 :=
  pts.map (fun pt =>
    let x :=
      if pt.x < cfg.margins.left then cfg.margins.left
      else if pt.x > bounds.w - cfg.margins.right then bounds.w - cfg.margins.right
      else pt.x
    let y :=
      if pt.y < cfg.margins.top then cfg.margins.top
      else if pt.y > bounds.h - cfg.margins.bottom then bounds.h - cfg.margins.bottom
      else pt.y
    (⟨x, y⟩ : Vec2))

/-- `ORIGINAL_SPAWN_POINTS` of ws-server.ts. -/
def ORIGINAL_SPAWN_POINTS : List Vec2 :=
  [⟨100, 100⟩, ⟨1800, 100⟩, ⟨100, 1000⟩, ⟨1800, 1000⟩]

/-- `randomSpawn()` of ws-server.ts: take the safe-spawn result when it is
in bounds and unblocked, else one of the margin-adjusted fallback points
(`fallbackIdx` stands for the random index draw). -/
def randomSpawn (bounds : Bounds) (obstacles : List Obstacle) (players : List Player)
    (samples fallbackSamples : List (ℚ × ℚ)) (fallbackIdx : ℕ) : Vec2 :=
  let safePos := findSafeSpawnPosition playerSpawnConfig bounds obstacles players
    samples fallbackSamples
  if isWithinSpawnBounds playerSpawnConfig bounds safePos &&
      !(isPositionBlocked obstacles safePos) then safePos
  else (adjustSpawnPointsToMargins playerSpawnConfig bounds
    ORIGINAL_SPAWN_POINTS).getD fallbackIdx ⟨100, 100⟩

/-- The `cmd:join` branch of the ws-server message handler: allocate the id,
create the player at the drawn spawn with `START_VEL` and the constructor's
default facing `(1,0)`, send the other players and `session:started` to this
connection only, and emit `player:join` on the bus. Returns (world players,
frames sent to this connection, bus events). -/
def wsJoin (now : ℚ) (players : List Player) (id name : String) (spawn : Vec2) :
    List Player × List Ev × List Ev :=
  let player := Player.init id name spawn ⟨0, 0⟩ ⟨1, 0⟩ now
  let players' := players ++ [player]
  let toClient := ((players'.filter (fun p => p.id ≠ id)).map
      (fun p => Ev.playerJoin p.id p.name)) ++ [Ev.sessionStarted id name]
  (players', toClient, [Ev.playerJoin id name])

/-- `DEFAULT_POS` of validation.ts. -/
def DEFAULT_POS : Vec2 := ⟨100, 100⟩

/-- `DEFAULT_FACE` of validation.ts (note: `(0,0)`, not `(1,0)`). -/
def DEFAULT_FACE : Vec2 := ⟨0, 0⟩

/-- The `cmd:join` bus handler of validation.ts: creates the player at the
fixed `DEFAULT_POS` with `DEFAULT_FACE`, regardless of obstacles or other
players, and emits `player:join`. -/
def onCmdJoin (now : ℚ) (players : List Player) (id name : String) :
    List Player × List Ev :=
  let player := Player.init id name DEFAULT_POS ⟨0, 0⟩ DEFAULT_FACE now
  (players ++ [player], [Ev.playerJoin id name])

lemma spawnAttemptLoop_sound {cfg : SpawnConfig} {bounds : Bounds}
    {obstacles : List Obstacle} {players : List Player}
    {samples : List (ℚ × ℚ)} {pos : Vec2}
    (h : spawnAttemptLoop cfg bounds obstacles players samples = some pos) :
    isPositionBlocked obstacles pos = false ∧
    nearestPlayerCloserThan players pos cfg.minDistanceFromPlayers = false := by
  unfold spawnAttemptLoop at h
  generalize List.range cfg.maxAttempts = l at h
  induction l with
  | nil => cases h
  | cons i t ih =>
      rw [List.findSome?_cons] at h
      by_cases hb : isPositionBlocked obstacles
          (getRandomSafePosition cfg bounds (samples.getD i (0, 0)).1
            (samples.getD i (0, 0)).2) = true
      · simp only [hb, if_true] at h
        exact ih h
      · by_cases hc : nearestPlayerCloserThan players
            (getRandomSafePosition cfg bounds (samples.getD i (0, 0)).1
              (samples.getD i (0, 0)).2) cfg.minDistanceFromPlayers = true
        · simp only [hb, hc, Bool.false_eq_true, if_false, if_true] at h
          exact ih h
        · simp only [hb, hc, Bool.false_eq_true, if_false, Option.some_inj] at h
          subst h
          exact ⟨by simpa using hb, by simpa using hc⟩

/-- C6 (amended): a `cmd:join` arriving over the websocket creates the
player, with a fresh id, at the `randomSpawn()` position with `hp = 100`,
`face = (1,0)` and empty cooldowns, and emits `player:join`; whenever the
spawn manager's sampling loop accepts a candidate, that candidate is not
inside any obstacle and respects the minimum distance from players, and
when it is also within the margin rectangle it is exactly the position
used. The `cmd:join` bus handler of the validation system instead places
the player at the fixed position `(100,100)` with `face = (0,0)`. -/
theorem join_creates_player_at_spawn :
    (∀ (now : ℚ) (players : List Player) (id name : String) (spawn : Vec2),
      ∃ p, (wsJoin now players id name spawn).1 = players ++ [p] ∧
        p.id = id ∧ p.hp = 100 ∧ p.face = ⟨1, 0⟩ ∧ p.cd = [] ∧ p.pos = spawn ∧
        p.isDead = false ∧
        (wsJoin now players id name spawn).2.2 = [Ev.playerJoin id name]) ∧
    (∀ (bounds : Bounds) (obstacles : List Obstacle) (players : List Player)
        (samples fallbackSamples : List (ℚ × ℚ)) (fallbackIdx : ℕ) (pos : Vec2),
      spawnAttemptLoop playerSpawnConfig bounds obstacles players samples = some pos →
      isPositionBlocked obstacles pos = false ∧
      nearestPlayerCloserThan players pos
        playerSpawnConfig.minDistanceFromPlayers = false ∧
      (isWithinSpawnBounds playerSpawnConfig bounds pos = true →
        randomSpawn bounds obstacles players samples fallbackSamples fallbackIdx = pos)) ∧
    (∀ (now : ℚ) (players : List Player) (id name : String),
      (onCmdJoin now players id name).1 =
        players ++ [Player.init id name ⟨100, 100⟩ ⟨0, 0⟩ ⟨0, 0⟩ now] ∧
      (onCmdJoin now players id name).2 = [Ev.playerJoin id name]) := by
  refine ⟨?_, ?_, ?_⟩
  · intro now players id name spawn
    exact ⟨Player.init id name spawn ⟨0, 0⟩ ⟨1, 0⟩ now,
      rfl, rfl, rfl, rfl, rfl, rfl, rfl, rfl⟩
  · intro bounds obstacles players samples fallbackSamples fallbackIdx pos h
    obtain ⟨hb, hc⟩ := spawnAttemptLoop_sound h
    refine ⟨hb, hc, fun hin => ?_⟩
    unfold randomSpawn findSafeSpawnPosition
    rw [h]
    dsimp only
    rw [if_pos (by simp [hin, hb])]
  · intro now players id name
    exact ⟨rfl, rfl⟩

attribute [local semireducible] Rat.add Rat.sub Rat.mul Rat.inv in
/-- Witness for the C6 theorem: one distant player, the first sample
accepted at (80,80), no obstacles. -/
theorem join_creates_player_at_spawn_witness :
    isPositionBlocked [] (⟨80, 80⟩ : Vec2) = false ∧
    nearestPlayerCloserThan [Player.init "far" "F" ⟨1900, 1100⟩ ⟨0, 0⟩ ⟨1, 0⟩ 0]
      (⟨80, 80⟩ : Vec2) playerSpawnConfig.minDistanceFromPlayers = false ∧
    (isWithinSpawnBounds playerSpawnConfig ⟨2000, 1200⟩ (⟨80, 80⟩ : Vec2) = true →
      randomSpawn ⟨2000, 1200⟩ [] [Player.init "far" "F" ⟨1900, 1100⟩ ⟨0, 0⟩ ⟨1, 0⟩ 0]
        [(0, 0)] [] 0 = ⟨80, 80⟩) :=
  join_creates_player_at_spawn.2.1 ⟨2000, 1200⟩ []
    [Player.init "far" "F" ⟨1900, 1100⟩ ⟨0, 0⟩ ⟨1, 0⟩ 0] [(0, 0)] [] 0 ⟨80, 80⟩
    (by decide)

/-- The obstacle covering the validation handler's fixed join position. -/
def blockingObstacle : Obstacle := ⟨90, 90, 20, 20⟩

attribute [local semireducible] Rat.add Rat.sub Rat.mul Rat.inv in
/-- C6 counterexample: the `cmd:join` bus handler of the validation system
creates the player at the fixed position (100,100) with `face = (0,0)` —
even on a map where (100,100) lies inside an obstacle — contradicting the
claim that every `cmd:join` creates the player at a safe spawn with
`face = (1,0)`. -/
theorem join_fixed_spawn_violates_safety :
    ((onCmdJoin 0 [] "j1" "Joe").1.head?).map (fun p => (p.pos, p.face, p.hp)) =
      some ((⟨100, 100⟩ : Vec2), (⟨0, 0⟩ : Vec2), (100 : ℚ)) ∧
    isPositionBlocked [blockingObstacle] ⟨100, 100⟩ = true ∧
    ((⟨0, 0⟩ : Vec2) ≠ (⟨1, 0⟩ : Vec2)) := by
  decide

/-! ### Event journal (source: src/unnamed/part_015, class EventJournal) -/

/-- The indexing metadata of a journal entry. A field is `none` when the
key is absent from the object; for `assistIds` and `source` the key may be
present while holding the JS value `undefined` (the inner `Option`). -/
structure EntryMeta where
  playerId : Option String := none
  victimId : Option String := none
  assistIds : Option (Option (List String)) := none
  source : Option (Option String) := none
  matchId : Option String := none
deriving Repr, DecidableEq

/-- The metadata object with no keys. -/
def EntryMeta.empty : EntryMeta := {}

/-- `extractMetadata(event)`: per-type switch filling `playerId` (and for
kills `victimId`/`assistIds`, for damage and knockback `source`), then the
journal's `options.matchId` when truthy; `undefined` when no key was set. -/
def extractMetadata (optMatchId : Option String) (e : Ev) : Option EntryMeta :=
  let m : EntryMeta :=
    match e with
    | .playerJoin pid _ => { playerId := some pid }
    | .playerMove pid _ => { playerId := some pid }
    | .playerAimed pid _ => { playerId := some pid }
    | .playerDie pid => { playerId := some pid }
    | .playerLeave pid => { playerId := some pid }
    | .buffApplied pid _ _ => { playerId := some pid }
    | .buffExpired pid _ => { playerId := some pid }
    | .dashStarted pid _ _ => { playerId := some pid }
    | .dashEnded pid => { playerId := some pid }
    | .cmdMove pid _ => { playerId := some pid }
    | .cmdCast pid _ => { playerId := some pid }
    | .cmdLeave pid => { playerId := some pid }
    | .cmdAim pid _ => { playerId := some pid }
    | .cmdRespawn pid => { playerId := some pid }
    | .playerKill k v a =>
        { playerId := some k, victimId := some v, assistIds := some a }
    | .damageApplied t _ src _ => { playerId := some t, source := some src }
    | .knockbackApplied t src => { playerId := some t, source := some src }
    | .projectileSpawned _ owner _ _ => { playerId := some owner }
    | .pickupCollected _ collector => { playerId := some collector }
    | .scoreUpdate pid _ _ _ => { playerId := some pid }
    | _ => {}
  let m' := match optMatchId with
    | some mid => if mid ≠ "" then { m with matchId := some mid } else m
    | none => m
  if m' = EntryMeta.empty then none else some m'

/-- One recorded journal entry. -/
structure JournalEntry where
  id : ℕ
  timestamp : ℚ
  gameTime : ℚ
  eventType : String
  event : Ev
  metadata : Option EntryMeta
deriving Repr, DecidableEq

/-- The journal's metadata block. -/
structure JournalMetadata where
  id : String
  createdAt : ℚ
  matchId : Option String
  duration : ℚ
  eventCount : ℕ
  playerIds : List String
  eventTypeCounts : List (String × ℕ)
  version : String
deriving Repr, DecidableEq

/-- The in-memory state of an `EventJournal` (`optMatchId` is
`options.matchId`; the player set and event counts keep JS insertion
order). -/
structure EventJournal where
  entries : List JournalEntry
  currentId : ℕ
  startTime : ℚ
  metadata : JournalMetadata
  playerSet : List String
  eventCounts : List (String × ℕ)
  optMatchId : Option String
deriving Repr, DecidableEq

/-- JS `Set.add` on an insertion-ordered set. -/
def setAdd (s : List String) (x : String) : List String :=
  if x ∈ s then s else s ++ [x]

/-- `eventCounts.get(k) || 0`. -/
def cntGet (m : List (String × ℕ)) (k : String) : ℕ :=
  ((m.find? (fun kv => kv.1 == k)).map Prod.snd).getD 0

/-- `eventCounts.set(k, get + 1)`: JS `Map.set` updates the existing entry
in place, else appends. -/
def cntInc (m : List (String × ℕ)) (k : String) : List (String × ℕ) :=
  if m.any (fun kv => kv.1 == k) then
    m.map (fun kv => if kv.1 == k then (kv.1, kv.2 + 1) else kv)
  else m ++ [(k, 1)]

/-- The unique-player tracking of `updateStats`: add the entry's truthy
`playerId` and `victimId` and every id of a present `assistIds` array to
the player set (an empty-string id is falsy and skipped; an `undefined`
assist list is skipped, an empty array is walked). -/
def metaPlayers (s : List String) : Option EntryMeta → List String
  | none => s
  | some m =>
    let s1 := match m.playerId with
      | some p => if p ≠ "" then setAdd s p else s
      | none => s
    let s2 := match m.victimId with
      | some v => if v ≠ "" then setAdd s1 v else s1
      | none => s1
    match m.assistIds with
    | some (some ids) => ids.foldl setAdd s2
    | _ => s2

/-- `new EventJournal(journalId, { matchId })` at time `now`. -/
def EventJournal.new (journalId : String) (matchId : Option String) (now : ℚ) :
    EventJournal :=
  { entries := [], currentId := 0, startTime := now,
    metadata := { id := journalId, createdAt := now, matchId := matchId,
                  duration := 0, eventCount := 0, playerIds := [],
                  eventTypeCounts := [], version := "1.0.0" },
    playerSet := [], eventCounts := [], optMatchId := matchId }

/-- `record(event)` at time `now`: append the entry (id `currentId++`,
game time `now - startTime`, extracted metadata), then `updateStats`
refreshes the counts, the player set and the metadata block. -/
def EventJournal.record (j : EventJournal) (now : ℚ) (e : Ev) : EventJournal :=
  let entry : JournalEntry :=
    { id := j.currentId, timestamp := now, gameTime := now - j.startTime,
      eventType := e.type, event := e,
      metadata := extractMetadata j.optMatchId e }
  let entries := j.entries ++ [entry]
  let eventCounts := cntInc j.eventCounts e.type
  let playerSet := metaPlayers j.playerSet entry.metadata
  { j with entries := entries, currentId := j.currentId + 1,
           eventCounts := eventCounts, playerSet := playerSet,
           metadata := { j.metadata with
                         eventCount := entries.length,
                         duration := now - j.startTime,
                         playerIds := playerSet,
                         eventTypeCounts := eventCounts } }

/-- `toJSON()`: the metadata block and the entry list, copied. -/
def EventJournal.toJSON (j : EventJournal) : JournalMetadata × List JournalEntry :=
  (j.metadata, j.entries)

/-- `Math.max(...ids) + 1` over a nonempty list, 0 over an empty one. -/
def jsMaxPlusOne (l : List ℕ) : ℕ :=
  match l with
  | [] => 0
  | i :: is => is.foldl max i + 1

/-- The player set `fromJSON` rebuilds: the truthy `metadata.playerId`
fields of the entries, in order of first appearance — `victimId` and
`assistIds` are not scanned. -/
def journalRebuiltPlayers (entries : List JournalEntry) : List String :=
  entries.foldl
    (fun s en =>
      match en.metadata with
      | some m =>
        match m.playerId with
        | some p => if p ≠ "" then setAdd s p else s
        | none => s
      | none => s) []

/-- `EventJournal.fromJSON(data)`: entries and metadata restored verbatim,
`currentId` from the maximal entry id, `startTime` from
`metadata.createdAt`, the event counts re-counted from the entries, and the
player set rebuilt from each entry's `metadata.playerId` only. -/
def EventJournal.fromJSON (data : JournalMetadata × List JournalEntry) :
    EventJournal :=
  { entries := data.2,
    currentId := jsMaxPlusOne (data.2.map (fun en => en.id)),
    startTime := data.1.createdAt,
    metadata := data.1,
    playerSet := journalRebuiltPlayers data.2,
    eventCounts := data.2.foldl (fun c en => cntInc c en.eventType) [],
    optMatchId := data.1.matchId }

/-- A journal built by creating it at `t0` and recording a timed trace. -/
def EventJournal.ofTrace (journalId : String) (matchId : Option String)
    (t0 : ℚ) (trace : List (ℚ × Ev)) : EventJournal :=
  trace.foldl (fun j te => EventJournal.record j te.1 te.2)
    (EventJournal.new journalId matchId t0)

/-- Structural facts every recorded journal satisfies: the metadata's
creation time and match id mirror the journal's, the entry ids are
`0, 1, ..., currentId - 1` in order, and the event counts are the fold of
the entries' types. -/
def journalWellFormed (j : EventJournal) : Prop :=
  j.metadata.createdAt = j.startTime ∧
  j.metadata.matchId = j.optMatchId ∧
  j.entries.map (fun en => en.id) = List.range j.currentId ∧
  j.eventCounts = j.entries.foldl (fun c en => cntInc c en.eventType) []

lemma journalWellFormed_record (j : EventJournal) (now : ℚ) (e : Ev)
    (h : journalWellFormed j) : journalWellFormed (EventJournal.record j now e) := by
  obtain ⟨h1, h2, h3, h4⟩ := h
  unfold journalWellFormed EventJournal.record
  dsimp only
  refine ⟨h1, h2, ?_, ?_⟩
  · rw [List.map_append, h3, List.range_succ]
    rfl
  · rw [List.foldl_append, ← h4]
    rfl

lemma journalWellFormed_foldl (trace : List (ℚ × Ev)) (j : EventJournal)
    (h : journalWellFormed j) :
    journalWellFormed
      (trace.foldl (fun j te => EventJournal.record j te.1 te.2) j) := by
  induction trace generalizing j with
  | nil => exact h
  | cons te t ih =>
      exact ih _ (journalWellFormed_record j te.1 te.2 h)

lemma journalWellFormed_ofTrace (journalId : String) (matchId : Option String)
    (t0 : ℚ) (trace : List (ℚ × Ev)) :
    journalWellFormed (EventJournal.ofTrace journalId matchId t0 trace) :=
  journalWellFormed_foldl trace _ ⟨rfl, rfl, rfl, rfl⟩

lemma foldl_max_zero_map_succ (m : ℕ) :
    ((List.range m).map Nat.succ).foldl max 0 = m := by
  induction m with
  | zero => rfl
  | succ k ih =>
      rw [List.range_succ, List.map_append, List.foldl_append, ih]
      simp only [List.map_cons, List.map_nil, List.foldl_cons, List.foldl_nil]
      exact max_eq_right (Nat.le_succ k)

lemma jsMaxPlusOne_range (n : ℕ) : jsMaxPlusOne (List.range n) = n := by
  cases n with
  | zero => rfl
  | succ m =>
      rw [List.range_succ_eq_map, jsMaxPlusOne, foldl_max_zero_map_succ]

/-- C9 (amended): for every journal built by recording a trace of events,
`fromJSON(toJSON(j))` restores the metadata block, the entries in order,
`currentId`, `startTime`, the associated match id and the event counts
exactly — but the unique-player set is rebuilt from each entry's
`metadata.playerId` field only, so the round-trip equals the original
journal with its player set replaced by that projection (victims and
assist ids recorded in kill entries are dropped from it). -/
theorem journal_roundtrip_trace (journalId : String) (matchId : Option String)
    (t0 : ℚ) (trace : List (ℚ × Ev)) :
    EventJournal.fromJSON (EventJournal.toJSON
        (EventJournal.ofTrace journalId matchId t0 trace)) =
      { EventJournal.ofTrace journalId matchId t0 trace with
        playerSet := journalRebuiltPlayers
          (EventJournal.ofTrace journalId matchId t0 trace).entries } := by
  obtain ⟨h1, h2, h3, h4⟩ := journalWellFormed_ofTrace journalId matchId t0 trace
  unfold EventJournal.fromJSON EventJournal.toJSON
  dsimp only
  rw [h1, h2, h3, jsMaxPlusOne_range, ← h4]

/-- The concrete journal of the C9 counterexample: one `player:kill`
event, killer "a", victim "b". -/
def killJournal : EventJournal :=
  EventJournal.ofTrace "J" none 0 [(10, Ev.playerKill "a" "b" none)]

/-- C9 counterexample: a journal holding one kill event has player set
{"a", "b"} (killer and victim), but `fromJSON(toJSON(j))` rebuilds the
player set from `metadata.playerId` only, giving {"a"} — the round-trip is
not equivalent to the original journal. -/
theorem journal_roundtrip_drops_kill_victim :
    killJournal.playerSet = ["a", "b"] ∧
    killJournal.metadata.playerIds = ["a", "b"] ∧
    (EventJournal.fromJSON (EventJournal.toJSON killJournal)).playerSet = ["a"] ∧
    (EventJournal.fromJSON (EventJournal.toJSON killJournal)).playerSet ≠
      killJournal.playerSet := by
  decide

/-! ### Broadcaster, match system and journal system (sources:
broadcaster.ts, part_031 MatchSystem, src/server/systems/journal.ts) -/

/-- `broadcast(message)` of broadcaster.ts: serialise the message and send
it to every open, non-backlogged websocket client. It never calls
`eventBus.emit`. Modeled as the pair (events emitted on the event bus,
frames sent to the websocket clients). -/
def broadcast (e : Ev) : List Ev × List Ev := ([], [e])

/-- A match record (the `players` set is unobserved by the claims and
omitted). Phases are "idle", "countdown", "active", "ended". -/
structure GameMatch where
  id : String
  mode : String
  phase : String
  startsAt : Option ℚ
  endsAt : Option ℚ
deriving Repr, DecidableEq

/-- `MatchSystem.startCountdown(matchId, countdownMs)` at time `now`:
guard that the match exists and is idle, set the phase and `startsAt`,
then send `match:created` via `broadcast()`. Returns (updated matches,
events emitted on the event bus, frames sent to websocket clients). -/
def startCountdown (ms : List (String × GameMatch)) (matchId : String)
    (countdownMs now : ℚ) :
    List (String × GameMatch) × List Ev × List Ev :=
  match ms.find? (fun kv => kv.1 == matchId) with
  | none => (ms, [], [])
  | some km =>
    if km.2.phase ≠ "idle" then (ms, [], [])
    else
      let m' := { km.2 with phase := "countdown", startsAt := some (now + countdownMs) }
      let be := broadcast (Ev.matchCreated matchId km.2.mode countdownMs)
      (ms.map (fun kv => if kv.1 == matchId then (kv.1, m') else kv),
       be.1, be.2)

/-- `MatchSystem.endMatch(matchId)` at time `now`: guard active, set phase
"ended" and `endsAt`, then send `match:ended` via `broadcast()`. -/
def endMatch (ms : List (String × GameMatch)) (matchId : String) (now : ℚ) :
    List (String × GameMatch) × List Ev × List Ev :=
  match ms.find? (fun kv => kv.1 == matchId) with
  | none => (ms, [], [])
  | some km =>
    if km.2.phase ≠ "active" then (ms, [], [])
    else
      let m' := { km.2 with phase := "ended", endsAt := some now }
      let be := broadcast (Ev.matchEnded matchId now)
      (ms.map (fun kv => if kv.1 == matchId then (kv.1, m') else kv),
       be.1, be.2)

/-- JS `a || b` on optional strings ("" is falsy). -/
def strOr (a b : Option String) : Option String :=
  match a with
  | some s => if s ≠ "" then some s else b
  | none => b

/-- The state of a `JournalSystem` (`maxJournalSize` is the config value,
100000 by default; `saved` collects the journals handed to storage). -/
structure JournalSystem where
  currentJournal : Option EventJournal
  currentMatchId : Option String
  isRecording : Bool
  eventCounter : ℕ
  startTime : ℚ
  maxJournalSize : ℕ
  saved : List EventJournal
deriving Repr, DecidableEq

/-- `generateJournalId(matchId?)`: the formatted timestamp and the random
hex string are passed as oracles. -/
def generateJournalId (matchId : Option String) (timestamp random : String) :
    String :=
  match matchId with
  | some mid =>
      if mid ≠ "" then "match_" ++ mid ++ "_" ++ timestamp
      else "session_" ++ timestamp ++ "_" ++ random
  | none => "session_" ++ timestamp ++ "_" ++ random

/-- `saveCurrentJournal()`: hand the current journal to storage (it is not
cleared). -/
def saveCurrentJournal (js : JournalSystem) : JournalSystem :=
  match js.currentJournal with
  | none => js
  | some j => { js with saved := js.saved ++ [j] }

/-- `startNewJournal(matchId?)` at time `now`: save the previous journal
if any, then install a fresh `EventJournal` named by `generateJournalId`
with match id `matchId || currentMatchId || undefined`, and reset the
recording counters. -/
def startNewJournal (js : JournalSystem) (matchId : Option String)
    (timestamp random : String) (now : ℚ) : JournalSystem :=
  let js1 := saveCurrentJournal js
  let journalId := generateJournalId matchId timestamp random
  let mid := strOr matchId (strOr js1.currentMatchId none)
  { js1 with currentJournal := some (EventJournal.new journalId mid now),
             isRecording := true, eventCounter := 0, startTime := now }

/-- `rotateJournal()`: save, then start a new journal for
`currentMatchId || undefined`. -/
def rotateJournal (js : JournalSystem) (timestamp random : String) (now : ℚ) :
    JournalSystem :=
  let js1 := saveCurrentJournal js
  startNewJournal js1 (strOr js.currentMatchId none) timestamp random now

/-- `recordEvent(event)` at time `now`: record into the current journal if
one exists, bump the counter, and rotate when the counter reaches
`maxJournalSize`. -/
def recordEvent (js : JournalSystem) (now : ℚ) (e : Ev)
    (timestamp random : String) : JournalSystem :=
  match js.currentJournal with
  | none => js
  | some j =>
    let js1 := { js with currentJournal := some (EventJournal.record j now e),
                         eventCounter := js.eventCounter + 1 }
    if js1.eventCounter ≥ js1.maxJournalSize then
      rotateJournal js1 timestamp random now
    else js1

/-- `handleMatchCreated(event)` for `match:created{id, mode, countdownMs}`:
remember the match id, start a journal for it, record the event. -/
def handleMatchCreated (js : JournalSystem) (id mode : String)
    (countdownMs : ℚ) (timestamp random : String) (now : ℚ) : JournalSystem :=
  let js1 := { js with currentMatchId := some id }
  let js2 := startNewJournal js1 (some id) timestamp random now
  recordEvent js2 now (Ev.matchCreated id mode countdownMs) timestamp random

/-- `handleMatchEnded(event)` for `match:ended{id, at}`: record the event,
save the journal, clear the match id, start a session journal. -/
def handleMatchEnded (js : JournalSystem) (id : String) (endedAt : ℚ)
    (timestamp random : String) (now : ℚ) : JournalSystem :=
  let js1 := recordEvent js now (Ev.matchEnded id endedAt) timestamp random
  let js2 := saveCurrentJournal js1
  let js3 := { js2 with currentMatchId := none }
  startNewJournal js3 none timestamp random now

/-- C5: the journal system's rotation handlers are subscribed on the event
bus (`eventBus.on('match:created', ...)`), but the match system publishes
its lifecycle events through `broadcast()`, which sends to websocket
clients only — `startCountdown`/`endMatch` emit nothing on the event bus
(first two conjuncts), even though the websocket clients do receive the
`match:created` frame (third conjunct); the handler itself, were it ever
invoked, would rotate correctly: after `handleMatchCreated` the current
journal is a fresh `match_<matchId>_<timestamp>` journal holding the
recorded creation event, and the match id is remembered (last conjunct). -/
theorem match_events_bypass_journal_rotation :
    (∀ (ms : List (String × GameMatch)) (matchId : String)
        (countdownMs now : ℚ),
      (startCountdown ms matchId countdownMs now).2.1 = []) ∧
    (∀ (ms : List (String × GameMatch)) (matchId : String) (now : ℚ),
      (endMatch ms matchId now).2.1 = []) ∧
    (∀ (m : GameMatch) (countdownMs now : ℚ),
      m.phase = "idle" →
      (startCountdown [(m.id, m)] m.id countdownMs now).2.2 =
        [Ev.matchCreated m.id m.mode countdownMs]) ∧
    (∀ (js : JournalSystem) (id mode : String) (countdownMs : ℚ)
        (timestamp random : String) (now : ℚ),
      id ≠ "" → 1 < js.maxJournalSize →
      (handleMatchCreated js id mode countdownMs timestamp random now).currentJournal =
        some (EventJournal.record
          (EventJournal.new ("match_" ++ id ++ "_" ++ timestamp) (some id) now)
          now (Ev.matchCreated id mode countdownMs)) ∧
      (handleMatchCreated js id mode countdownMs timestamp random now).currentMatchId =
        some id) := by
  refine ⟨?_, ?_, ?_, ?_⟩
  · intro ms matchId countdownMs now
    unfold startCountdown
    cases h : ms.find? (fun kv => kv.1 == matchId) with
    | none => rfl
    | some km =>
        dsimp only
        split
        · rfl
        · rfl
  · intro ms matchId now
    unfold endMatch
    cases h : ms.find? (fun kv => kv.1 == matchId) with
    | none => rfl
    | some km =>
        dsimp only
        split
        · rfl
        · rfl
  · intro m countdownMs now hp
    unfold startCountdown
    rw [List.find?_cons_of_pos _ (by simp)]
    dsimp only
    rw [if_neg (by simp [hp])]
    rfl
  · intro js id mode countdownMs timestamp random now hid hmax
    unfold handleMatchCreated recordEvent startNewJournal saveCurrentJournal
      generateJournalId strOr
    cases hj : js.currentJournal with
    | none =>
        dsimp only
        simp only [ne_eq, hid, not_false_eq_true, ite_true]
        rw [if_neg (by omega)]
        exact ⟨rfl, rfl⟩
    | some j =>
        dsimp only
        simp only [ne_eq, hid, not_false_eq_true, ite_true]
        rw [if_neg (by omega)]
        exact ⟨rfl, rfl⟩

/-- A fresh session journal system, as built on startup. -/
def js0 : JournalSystem :=
  { currentJournal := some (EventJournal.new "session_t0_r0" none 0),
    currentMatchId := none, isRecording := true, eventCounter := 0,
    startTime := 0, maxJournalSize := 100000, saved := [] }

/-- Witness for the C5 theorem: the match-created handler invoked directly
on a fresh session journal system rotates to a `match_m1_...` journal. -/
theorem match_events_bypass_journal_rotation_witness :
    (handleMatchCreated js0 "m1" "deathmatch" 10000 "20250101T000000" "r0"
        1000).currentJournal =
      some (EventJournal.record
        (EventJournal.new ("match_" ++ "m1" ++ "_" ++ "20250101T000000")
          (some "m1") 1000)
        1000 (Ev.matchCreated "m1" "deathmatch" 10000)) ∧
    (handleMatchCreated js0 "m1" "deathmatch" 10000 "20250101T000000" "r0"
        1000).currentMatchId = some "m1" :=
  match_events_bypass_journal_rotation.2.2.2 js0 "m1" "deathmatch" 10000
    "20250101T000000" "r0" 1000 (by decide) (by decide)

/-! ### Event bus dispatch (source: events.type.ts, class EventBus over a
Node `EventEmitter` with `captureRejections: true`)

`EventBus.emit` delegates to `EventEmitter.emit`, which calls the
listeners registered for the event type in order, synchronously, with no
try/catch anywhere on the path: a listener that throws makes `emit` itself
throw, and the listeners after it are not called (`captureRejections`
only routes rejected promises returned by async listeners). Dispatch is
embedded as a fold over the listener list in which each listener either
transforms the shared state or throws. -/

/-- Synchronous dispatch of one event to its registered listeners, in
registration order: a throw propagates out of `emit` at once. -/
def emitBus {σ ε : Type} (listeners : List (σ → Except ε σ)) (s : σ) :
    Except ε σ :=
  match listeners with
  | [] => Except.ok s
  | l :: ls =>
    match l s with
    | Except.ok s' => emitBus ls s'
    | Except.error e => Except.error e

/-- A listener that always throws. -/
def faultyListener : JournalSystem → Except String JournalSystem :=
  fun _ => Except.error "listener crash"

/-- The journal system's recording listener, as registered for each
recordable event type. -/
def journalListener (now : ℚ) (e : Ev) (timestamp random : String) :
    JournalSystem → Except String JournalSystem :=
  fun js => Except.ok (recordEvent js now e timestamp random)

/-- C4 (amended): if the listeners before `l` run to completion and `l`
then throws, the whole emit throws with `l`'s error and none of the
listeners after `l` runs, whatever they are — nothing on the dispatch path
catches or logs the error. -/
theorem bus_throw_aborts_subsequent_listeners {σ ε : Type}
    (ls1 ls2 : List (σ → Except ε σ)) (l : σ → Except ε σ) (s s' : σ) (e : ε)
    (h1 : emitBus ls1 s = Except.ok s') (h2 : l s' = Except.error e) :
    emitBus (ls1 ++ l :: ls2) s = Except.error e := by
  induction ls1 generalizing s with
  | nil =>
      simp only [emitBus] at h1
      cases h1
      simp only [List.nil_append, emitBus, h2]
  | cons a t ih =>
      simp only [List.cons_append, emitBus] at h1 ⊢
      cases ha : a s with
      | ok s1 =>
          rw [ha] at h1
          dsimp only at h1 ⊢
          exact ih s1 h1
      | error e' =>
          rw [ha] at h1
          dsimp only at h1
          cases h1

/-- Witness for the C4 theorem: one healthy listener, then a throwing one,
then the journal's recording listener. -/
theorem bus_throw_aborts_subsequent_listeners_witness :
    emitBus [journalListener 5 (Ev.playerDie "a") "t" "r", faultyListener,
      journalListener 6 (Ev.playerDie "b") "t" "r"] js0 =
      Except.error "listener crash" :=
  bus_throw_aborts_subsequent_listeners
    [journalListener 5 (Ev.playerDie "a") "t" "r"]
    [journalListener 6 (Ev.playerDie "b") "t" "r"]
    faultyListener js0 (recordEvent js0 5 (Ev.playerDie "a") "t" "r")
    "listener crash" (by rfl) (by rfl)

/-- C4 counterexample: with two listeners registered for the same event, a
throw in the first makes the emit fail and the second (the journal's
recording listener) never runs — run alone it would have recorded the
event — so a raising listener does prevent subsequent listeners from
running. -/
theorem bus_listener_throw_skips_journal :
    emitBus [faultyListener, journalListener 5 (Ev.playerDie "a") "t" "r"] js0 =
      Except.error "listener crash" ∧
    (emitBus [journalListener 5 (Ev.playerDie "a") "t" "r"] js0).map
      (fun js => js.eventCounter) = Except.ok 1 := by
  exact ⟨rfl, rfl⟩

/-! ### Claim-facing predicates and concrete scenarios -/

/-- The hp/death state invariant of the specification: `hp = 0 ⇔ isDead`,
and every live player has `0 < hp ≤ 100`. -/
def hpInvariant (p : Player) : Prop :=
  (p.hp = 0 ↔ p.isDead = true) ∧ (p.isDead = false → 0 < p.hp ∧ p.hp ≤ 100)

instance (p : Player) : Decidable (hpInvariant p) := by
  unfold hpInvariant
  infer_instance

/-- A dead player (hp 0) standing on a heal pickup. -/
def deadCollector : Player :=
  { Player.init "p1" "P1" ⟨500, 500⟩ ⟨0, 0⟩ ⟨1, 0⟩ 0 with
      hp := 0, isDead := true, diedAt := some 0 }

/-- A heal pickup at the dead player's position. -/
def healPickup : Pickup :=
  ⟨"pk1", ⟨500, 500⟩, .heal⟩

/-- Scenario for the self-explosion kill: the rocket owner, damaged, inside
the blast radius of their own rocket. -/
def rocketOwnerLowHp : Player :=
  { Player.init "alice" "Alice" ⟨40, 0⟩ ⟨0, 0⟩ ⟨1, 0⟩ 0 with hp := 40 }

/-- The player the rocket directly hits. -/
def rocketVictim : Player :=
  Player.init "bob" "Bob" ⟨100, 0⟩ ⟨0, 0⟩ ⟨1, 0⟩ 0

/-- The rocket, owned by alice, sitting on bob (within its 28-unit hit
radius); its explosion radius 80 reaches alice at distance 60. -/
def ownRocket : Projectile :=
  Projectile.init "r1" "alice" ⟨100, 0⟩ ⟨0, 0⟩ .rocket none none none 0

attribute [local semireducible] Rat.add Rat.sub Rat.mul Rat.inv in
/-- C2 (failing-input evaluation): the pickup-collection loop iterates every
player in the world with no liveness check, so a dead player (hp 0,
`isDead`) standing within `PLAYER_PICK_RADIUS` of a heal pickup removes the
pickup, emits `pickup:collected` with themselves as collector, and receives
the heal (hp becomes 35) — contradicting the claim that a dead player never
collects any pickup. -/
theorem dead_player_collects_pickup :
    deadCollector.isDeadPlayer = true ∧
    (collectionPass 1000 [deadCollector] [healPickup]).2.1 = [] ∧
    Ev.pickupCollected "pk1" "p1" ∈ (collectionPass 1000 [deadCollector] [healPickup]).2.2 ∧
    (collectionPass 1000 [deadCollector] [healPickup]).1 =
      [{ deadCollector with hp := 35 }] := by
  decide

attribute [local semireducible] Rat.add Rat.sub Rat.mul Rat.inv in
/-- C3 counterexample: the heal-pickup operation applied to a dead player
(reachable because the collection loop has no liveness check) yields a
player with `hp = 35` and `isDead = true`, violating `hp = 0 ⇔ isDead`. -/
theorem hp_isDead_invariant_violated_by_dead_heal :
    (∀ p ∈ [deadCollector], hpInvariant p) ∧
    ¬ (∀ p ∈ (collectionPass 1000 [deadCollector] [healPickup]).1, hpInvariant p) := by
  decide

attribute [local semireducible] Rat.add Rat.sub Rat.mul Rat.inv in
set_option maxHeartbeats 2000000 in
/-- C1 counterexample: running the `tick:post` hit pass on a world where
alice's own rocket hits bob and the explosion (radius 80) also covers alice
(hp 40 at distance 60): the pass emits `damage:applied` with
`source = target = alice`, and the kill resolution credits alice with a kill
for her own death and emits `streak:changed` for her — contradicting the
claim that a self-explosion death grants no kill and no streak increment. -/
theorem self_explosion_grants_kill :
    ownRocket.owner = "alice" ∧
    Ev.damageApplied "alice" 40 (some "alice") .explosion ∈
      (combatTickPost 1000 [rocketOwnerLowHp, rocketVictim] [ownRocket] []).2 ∧
    ((getPlayer (combatTickPost 1000 [rocketOwnerLowHp, rocketVictim] [ownRocket] []).1.1
        "alice").map (fun p => (p.stats.kills, p.isDead))) = some (1, true) ∧
    Ev.streakChanged "alice" 1 0 ∈
      (combatTickPost 1000 [rocketOwnerLowHp, rocketVictim] [ownRocket] []).2 := by
  decide

/-! ### Invariant preservation lemmas for the hp/death state -/

lemma hpInvariant_die (p : Player) (now : ℚ) : hpInvariant (p.die now) := by
  simp [hpInvariant, Player.die]

lemma hpInvariant_takeDamage (p : Player) (now amount : ℚ)
    (h : hpInvariant p) (ha : 0 ≤ amount) : hpInvariant (p.takeDamage now amount).1 := by
  obtain ⟨h1, h2⟩ := h
  unfold Player.takeDamage
  dsimp only
  split
  · exact hpInvariant_die _ now
  · rename_i hcond
    by_cases hd : p.isDead
    · have hp0 : p.hp = 0 := h1.mpr (by simpa using hd)
      refine ⟨⟨fun _ => by simpa using hd, fun _ => ?_⟩, fun hh => ?_⟩
      · show (0 : ℚ) ⊔ (p.hp - amount) = 0
        rw [hp0]
        exact sup_eq_left.mpr (by linarith)
      · exfalso
        dsimp only at hh
        rw [hh] at hd
        exact Bool.false_ne_true hd
    · have hlv : p.isDead = false := by simpa using hd
      obtain ⟨hpos, hle⟩ := h2 hlv
      have hal : p.isAlive = true := by simp [Player.isAlive, hlv, hpos]
      simp only [hal, Bool.true_and, decide_eq_true_eq] at hcond
      have hko : (0 : ℚ) < 0 ⊔ (p.hp - amount) := lt_of_not_ge hcond
      refine ⟨⟨fun hh => ?_, fun hh => by dsimp only at hh; rw [hlv] at hh; cases hh⟩,
        fun _ => ⟨hko, ?_⟩⟩
      · exfalso
        dsimp only at hh
        rw [hh] at hko
        exact lt_irrefl 0 hko
      · have hm : (0 : ℚ) ⊔ (p.hp - amount) ≤ p.hp := sup_le (le_of_lt hpos) (by linarith)
        exact hm.trans hle

lemma hpInvariant_heal (p : Player) (amount : ℚ)
    (h : hpInvariant p) (hlive : p.isDead = false) (ha : 0 ≤ amount) :
    hpInvariant (p.heal amount) := by
  obtain ⟨h1, h2⟩ := h
  obtain ⟨hpos, hle⟩ := h2 hlive
  unfold Player.heal
  refine ⟨⟨fun hh => ?_, fun hh => by rw [hlive] at hh; cases hh⟩, fun _ => ⟨?_, ?_⟩⟩
  · exfalso
    simp only at hh
    have : (0 : ℚ) < min 100 (p.hp + amount) := lt_min (by norm_num) (by linarith)
    rw [hh] at this
    exact lt_irrefl 0 this
  · exact lt_min (by norm_num) (by linarith)
  · exact min_le_left _ _

lemma hpInvariant_init (id name : String) (pos vel face : Vec2) (now : ℚ) :
    hpInvariant (Player.init id name pos vel face now) := by
  simp [hpInvariant, Player.init]

lemma hpInvariant_respawn (p : Player) (newPos : Vec2) :
    hpInvariant (p.respawn newPos) := by
  simp [hpInvariant, Player.respawn]

lemma effectiveDamage_nonneg (t : Player) (now amount : ℚ) (ha : 0 ≤ amount) :
    0 ≤ effectiveDamage t now amount := by
  unfold effectiveDamage
  split
  · have : (0 : ℤ) ≤ ⌈amount * (1 / 2)⌉ := Int.ceil_nonneg (by linarith)
    exact_mod_cast this
  · exact ha

lemma forall_mem_updatePlayer {P : Player → Prop} {ps : List Player}
    {pid : String} {f : Player → Player}
    (h : ∀ p ∈ ps, P p) (hf : ∀ p ∈ ps, P (f p)) :
    ∀ p ∈ updatePlayer ps pid f, P p := by
  intro p hp
  unfold updatePlayer at hp
  obtain ⟨q, hq, rfl⟩ := List.mem_map.mp hp
  by_cases hc : (q.id == pid) = true
  · simpa [hc] using hf q hq
  · simp only [hc]
    simpa using h q hq

lemma assistFold_hpInv (srcs : List String) (players : List Player) (ids : List String)
    (h : ∀ p ∈ players, hpInvariant p) :
    ∀ p ∈ (srcs.foldl
      (fun acc aid =>
        match getPlayer acc.1 aid with
        | some _ => (updatePlayer acc.1 aid Player.addAssist, acc.2 ++ [aid])
        | none => acc)
      (players, ids)).1, hpInvariant p := by
  induction srcs generalizing players ids with
  | nil => simpa
  | cons aid rest ih =>
      simp only [List.foldl_cons]
      cases hg : getPlayer players aid with
      | none => simpa [hg] using ih players ids h
      | some q =>
          simp only [hg]
          refine ih _ _ ?_
          exact forall_mem_updatePlayer h
            (fun p hp => by
              have := h p hp
              simp [hpInvariant, Player.addAssist] at this ⊢
              exact this)

lemma killResolution_hpInv (now : ℚ) (players : List Player)
    (rd : List (String × List DmgRec)) (e : DamageAppliedEvent)
    (h : ∀ p ∈ players, hpInvariant p) :
    ∀ p ∈ (killResolution now players rd e).1, hpInvariant p := by
  unfold killResolution
  refine fun p hp => ?_
  have main : ∀ (ps : List Player), (∀ q ∈ ps, hpInvariant q) →
      ∀ q ∈ updatePlayer ps e.targetId
        (fun q => { q with isDead := true, diedAt := some now, hp := 0 }),
      hpInvariant q := by
    intro ps hps
    exact forall_mem_updatePlayer hps (fun q hq => by simp [hpInvariant])
  revert hp
  cases hv : getPlayer players e.targetId with
  | none =>
      simp only [hv]
      intro hp
      exact main players h p hp
  | some victim =>
      simp only [hv]
      cases hsrc : e.source with
      | none =>
          simp only [hsrc]
          intro hp
          exact main players h p hp
      | some src =>
          simp only [hsrc]
          cases hk : getPlayer players src with
          | none =>
              simp only [hk]
              intro hp
              exact main players h p hp
          | some killer =>
              simp only [hk]
              intro hp
              refine main _ ?_ p hp
              apply assistFold_hpInv
              exact forall_mem_updatePlayer h
                (fun q hq => by simpa [hpInvariant, Player.addKill] using h q hq)

lemma onDamageApplied_hpInv (now : ℚ) (players : List Player)
    (rd : List (String × List DmgRec)) (e : DamageAppliedEvent)
    (ha : 0 ≤ e.amount) (h : ∀ p ∈ players, hpInvariant p) :
    ∀ p ∈ (onDamageApplied now players rd e).1, hpInvariant p := by
  unfold onDamageApplied
  cases ht : getPlayer players e.targetId with
  | none => simpa using h
  | some t0 =>
      simp only [ht]
      by_cases hguard : (t0.isDeadPlayer || t0.hasIframes now) = true
      · simpa [hguard] using h
      · simp only [hguard, Bool.false_eq_true, if_false]
        have h1 : ∀ p ∈ updatePlayer players e.targetId
            (fun q => (q.takeDamage now (effectiveDamage t0 now e.amount)).1), hpInvariant p :=
          forall_mem_updatePlayer h
            (fun q hq => hpInvariant_takeDamage q now _ (h q hq)
              (effectiveDamage_nonneg t0 now e.amount ha))
        cases hsrc : e.source with
        | none =>
            simp only [hsrc]
            cases ht1 : getPlayer (updatePlayer players e.targetId
                (fun q => (q.takeDamage now (effectiveDamage t0 now e.amount)).1)) e.targetId with
            | none => simpa [ht1] using h1
            | some t1 =>
                simp only [ht1]
                split
                · exact killResolution_hpInv _ _ _ _ h1
                · exact h1
        | some src =>
            simp only [hsrc]
            cases hs : getPlayer (updatePlayer players e.targetId
                (fun q => (q.takeDamage now (effectiveDamage t0 now e.amount)).1)) src with
            | none =>
                simp only [hs]
                cases ht1 : getPlayer (updatePlayer players e.targetId
                    (fun q => (q.takeDamage now (effectiveDamage t0 now e.amount)).1)) e.targetId with
                | none => simpa [ht1] using h1
                | some t1 =>
                    simp only [ht1]
                    split
                    · exact killResolution_hpInv _ _ _ _ h1
                    · exact h1
            | some s =>
                simp only [hs]
                have h2 : ∀ p ∈ updatePlayer (updatePlayer players e.targetId
                    (fun q => (q.takeDamage now (effectiveDamage t0 now e.amount)).1)) e.targetId
                    (fun q => { q with kbUntil := some (now + Config.knockbackDuration) }),
                    hpInvariant p :=
                  forall_mem_updatePlayer h1
                    (fun q hq => by
                      have := h1 q hq
                      simpa [hpInvariant] using this)
                cases ht1 : getPlayer (updatePlayer (updatePlayer players e.targetId
                    (fun q => (q.takeDamage now (effectiveDamage t0 now e.amount)).1)) e.targetId
                    (fun q => { q with kbUntil := some (now + Config.knockbackDuration) }))
                    e.targetId with
                | none => simpa [ht1] using h2
                | some t1 =>
                    simp only [ht1]
                    split
                    · exact killResolution_hpInv _ _ _ _ h2
                    · exact h2

/-- C3 (amended): the hp/death invariant (`hp = 0 ⇔ isDead`, live players
have `0 < hp ≤ 100`) holds for a newly joined player, is preserved by the
whole `damage:applied` handler (damage application and kill resolution) for
nonnegative damage amounts, by respawn, and by the heal pickup when the
collector is alive. (It is not preserved by a heal pickup collected by a
dead player, which the collection loop permits — see the counterexample.) -/
theorem hp_isDead_invariant_preservation :
    (∀ (id name : String) (pos vel face : Vec2) (now : ℚ),
      hpInvariant (Player.init id name pos vel face now)) ∧
    (∀ (p : Player) (newPos : Vec2), hpInvariant (p.respawn newPos)) ∧
    (∀ (p : Player), hpInvariant p → p.isDead = false → hpInvariant (p.heal 35)) ∧
    (∀ (now : ℚ) (players : List Player) (rd : List (String × List DmgRec))
        (e : DamageAppliedEvent), 0 ≤ e.amount → (∀ p ∈ players, hpInvariant p) →
      ∀ p ∈ (onDamageApplied now players rd e).1, hpInvariant p) :=
  ⟨hpInvariant_init, hpInvariant_respawn,
   fun p h hl => hpInvariant_heal p 35 h hl (by norm_num),
   fun now players rd e ha h => onDamageApplied_hpInv now players rd e ha h⟩

/-! ### Kill-resolution lemmas -/

lemma getPlayer_eq_id {ps : List Player} {pid : String} {p : Player}
    (h : getPlayer ps pid = some p) : p.id = pid := by
  unfold getPlayer at h
  have := List.find?_some h
  simpa using this

lemma getPlayer_updatePlayer (ps : List Player) (pid pid' : String) (f : Player → Player)
    (hf : ∀ q, (f q).id = q.id) :
    getPlayer (updatePlayer ps pid f) pid' =
      (getPlayer ps pid').map (fun q => if q.id == pid then f q else q) := by
  unfold getPlayer updatePlayer
  rw [List.find?_map]
  have hpred : ((fun p : Player => p.id == pid') ∘ fun q => if q.id == pid then f q else q)
      = (fun p : Player => p.id == pid') := by
    funext q
    simp only [Function.comp_apply]
    by_cases h : (q.id == pid) = true <;> simp [h, hf]
  rw [hpred]

lemma assistFold_getPlayer (srcs : List String) (players : List Player)
    (ids : List String) (src : String) (hne : ∀ aid ∈ srcs, aid ≠ src) :
    getPlayer (srcs.foldl
      (fun acc aid =>
        match getPlayer acc.1 aid with
        | some _ => (updatePlayer acc.1 aid Player.addAssist, acc.2 ++ [aid])
        | none => acc)
      (players, ids)).1 src = getPlayer players src := by
  induction srcs generalizing players ids with
  | nil => rfl
  | cons aid rest ih =>
      simp only [List.foldl_cons]
      have h1 : aid ≠ src := hne aid (by simp)
      cases hg : getPlayer players aid with
      | none =>
          simp only [hg]
          exact ih players ids (fun a ha => hne a (List.mem_cons_of_mem _ ha))
      | some q =>
          simp only [hg]
          rw [ih _ _ (fun a ha => hne a (List.mem_cons_of_mem _ ha))]
          rw [getPlayer_updatePlayer players aid src Player.addAssist (fun q => rfl)]
          cases hgs : getPlayer players src with
          | none => rfl
          | some s =>
              have hs : s.id = src := getPlayer_eq_id hgs
              have hcond : (s.id == aid) = false := by
                rw [hs]
                exact beq_eq_false_iff_ne.mpr (Ne.symm h1)
              dsimp only [Option.map]
              rw [if_neg (by simp [hcond])]

lemma mem_assistSourcesOf_ne {vd : List DmgRec} {src tgt aid : String}
    (h : aid ∈ assistSourcesOf vd src tgt) : aid ≠ src := by
  unfold assistSourcesOf at h
  suffices H : ∀ acc : List String, (∀ x ∈ acc, x ≠ src) →
      ∀ x ∈ vd.foldl
        (fun acc d =>
          if d.source ≠ src ∧ d.source ≠ tgt ∧ d.source ∉ acc then acc ++ [d.source]
          else acc) acc, x ≠ src by
    exact H [] (by simp) aid h
  clear h
  induction vd with
  | nil => intro acc hacc x hx; exact hacc x hx
  | cons d rest ih =>
      intro acc hacc x hx
      simp only [List.foldl_cons] at hx
      by_cases hc : d.source ≠ src ∧ d.source ≠ tgt ∧ d.source ∉ acc
      · rw [if_pos hc] at hx
        refine ih (acc ++ [d.source]) ?_ x hx
        intro y hy
        rcases List.mem_append.mp hy with hy | hy
        · exact hacc y hy
        · rw [List.mem_singleton.mp hy]
          exact hc.1
      · rw [if_neg hc] at hx
        exact ih acc hacc x hx

lemma addKill_currentStreak (s : PlayerStats) (t : ℚ) :
    (s.addKill t).currentStreak = s.currentStreak + 1 := by
  unfold PlayerStats.addKill
  dsimp only
  split <;> rfl

lemma addKill_kills (s : PlayerStats) (t : ℚ) :
    (s.addKill t).kills = s.kills + 1 := by
  unfold PlayerStats.addKill
  dsimp only
  split <;> rfl

/-- C1 (amended): in the kill-resolution block of the `damage:applied`
handler (entered when the target's hp has reached 0), the only guard on
crediting the kill is that the `source` id resolves to a player record in
the world: whenever it does, that player's kill count is incremented and
`streak:changed` is emitted for them — with no comparison of source against
target, so this also happens when `source = target` (a player killed by
their own rocket explosion credits themselves a kill). -/
theorem kill_credited_whenever_source_resolves
    (now : ℚ) (players : List Player) (rd : List (String × List DmgRec))
    (e : DamageAppliedEvent) (v k : Player) (src : String)
    (hv : getPlayer players e.targetId = some v)
    (hs : e.source = some src)
    (hk : getPlayer players src = some k) :
    (∃ k', getPlayer (killResolution now players rd e).1 src = some k' ∧
      k'.stats.kills = k.stats.kills + 1) ∧
    Ev.streakChanged src (k.stats.currentStreak + 1) k.stats.currentStreak
      ∈ (killResolution now players rd e).2.2 := by
  have hkid : k.id = src := getPlayer_eq_id hk
  unfold killResolution
  simp only [hs, hv, hk]
  have hkill : getPlayer (updatePlayer players src (fun q => q.addKill now)) src =
      some (k.addKill now) := by
    rw [getPlayer_updatePlayer players src src (fun q => q.addKill now) (fun q => rfl), hk]
    simp [hkid]
  have hfold : getPlayer ((assistSourcesOf
      ((rdGet rd e.targetId).filter
        (fun d => now - d.timestamp ≤ Config.assistTimeWindow)) src e.targetId).foldl
      (fun acc aid =>
        match getPlayer acc.1 aid with
        | some _ => (updatePlayer acc.1 aid Player.addAssist, acc.2 ++ [aid])
        | none => acc)
      (updatePlayer players src (fun q => q.addKill now), ([] : List String))).1 src =
      some (k.addKill now) := by
    rw [assistFold_getPlayer _ _ _ _ (fun aid ha => mem_assistSourcesOf_ne ha)]
    exact hkill
  constructor
  · rw [getPlayer_updatePlayer _ e.targetId src
      (fun q => { q with isDead := true, diedAt := some now, hp := 0 }) (fun q => rfl), hfold]
    dsimp only [Option.map]
    by_cases hc : ((k.addKill now).id == e.targetId) = true
    · rw [if_pos hc]
      exact ⟨_, rfl, by simp [Player.addKill, addKill_kills]⟩
    · rw [if_neg (by simpa using hc)]
      exact ⟨_, rfl, by simp [Player.addKill, addKill_kills]⟩
  · rw [hkill]
    simp [Player.addKill, Player.getCurrentStreak, addKill_currentStreak, List.mem_append]

/-- A fresh player used to instantiate hypothesis-bearing theorems. -/
def witnessPlayer : Player :=
  Player.init "w" "W" ⟨0, 0⟩ ⟨0, 0⟩ ⟨1, 0⟩ 0

/-! ### Command validation and casting (source: src/server/systems/validation.ts) -/

/-- The castable skills (source: `Skills` in cmd.type.ts). -/
inductive Skill where
  | shoot
  | shotgun
  | rocket
  | dash
  | nova
deriving Repr, DecidableEq

/-- Wire string of a skill (`skill:xxx`). -/
def Skill.key : Skill → String
  | .shoot => "skill:shoot"
  | .shotgun => "skill:shotgun"
  | .rocket => "skill:rocket"
  | .dash => "skill:dash"
  | .nova => "skill:nova"

/-- Configured cooldown of a skill (defaults.ts `cooldowns`; nova has no
cast branch and no cooldown entry). -/
def Skill.cooldown : Skill → ℚ
  | .shoot => Config.cooldownShoot
  | .shotgun => Config.cooldownShotgun
  | .rocket => Config.cooldownRocket
  | .dash => Config.cooldownDash
  | .nova => 0

/-- `projectiles.pellet.count`. -/
def Config.pelletCount : ℕ := 5

/-- `projectiles.rocket.hitRadius`. -/
def Config.rocketHitRadius : ℚ := 28

/-- `p.cd[cdKey] ?? 0` on the player's cooldown record. -/
def cdGet (cd : List (String × ℚ)) (key : String) : ℚ :=
  match cd.find? (fun kv => kv.1 == key) with
  | some kv => kv.2
  | none => 0

/-- `p.cd[cdKey] = v` on the cooldown record (update or add). -/
def cdSet (cd : List (String × ℚ)) (key : String) (v : ℚ) : List (String × ℚ) :=
  if cd.any (fun kv => kv.1 == key) then
    cd.map (fun kv => if kv.1 == key then (key, v) else kv)
  else cd ++ [(key, v)]

/-- The `cmd:cast` handler. `ids` supplies the freshly drawn UUIDs in order;
`vels` supplies the spawned projectiles' velocity vectors (the source
computes them by normalizing the facing and, for pellets, rotating it by
trigonometric spread angles — irrational values that no verified claim
observes, so they enter the embedding as inputs). Dead players and unknown
skills fall through with no effect. -/
def onCmdCast (now : ℚ) (players : List Player) (projectiles : List Projectile)
    (playerId : String) (skill : Skill) (ids : List String) (vels : List Vec2) :
    List Player × List Projectile × List Ev :=
  match getPlayer players playerId with
  | none => (players, projectiles, [])
  | some p =>
    if p.isDeadPlayer then (players, projectiles, [])
    else
      let cdKey := "cd:" ++ skill.key
      match skill with
      | .shoot =>
          if cdGet p.cd cdKey > now then (players, projectiles, [])
          else
            let id := ids.headD ""
            let pos := p.pos
            let projectile :=
              Projectile.init id p.id pos (vels.headD ⟨0, 0⟩) .bullet none none none now
            (updatePlayer players playerId
               (fun q =>
                 ({ q with cd := cdSet q.cd cdKey (now + Config.cooldownShoot) }).addShotFired),
             projectiles ++ [projectile],
             [Ev.projectileSpawned id p.id pos .bullet])
      | .shotgun =>
          if cdGet p.cd cdKey > now then (players, projectiles, [])
          else
            let newPr := (List.range Config.pelletCount).map
              (fun i => Projectile.init (ids.getD i "") p.id p.pos (vels.getD i ⟨0, 0⟩)
                .pellet none none none now)
            (updatePlayer players playerId
               (fun q =>
                 (List.range Config.pelletCount).foldl (fun q _ => q.addShotFired)
                   { q with cd := cdSet q.cd cdKey (now + Config.cooldownShotgun) }),
             projectiles ++ newPr,
             newPr.map (fun pr => Ev.projectileSpawned pr.id p.id pr.pos .pellet))
      | .rocket =>
          if cdGet p.cd cdKey > now then (players, projectiles, [])
          else
            let id := ids.headD ""
            let pos := p.pos
            let projectile :=
              Projectile.init id p.id pos (vels.headD ⟨0, 0⟩) .rocket
                (some Config.rocketHitRadius) none none now
            (updatePlayer players playerId
               (fun q =>
                 ({ q with cd := cdSet q.cd cdKey (now + Config.cooldownRocket) }).addShotFired),
             projectiles ++ [projectile],
             [Ev.projectileSpawned id p.id pos .rocket])
      | .dash =>
          if cdGet p.cd cdKey > now then (players, projectiles, [])
          else
            let duration : ℚ := 220
            (updatePlayer players playerId
               (fun q =>
                 { q with cd := cdSet q.cd cdKey (now + Config.cooldownDash)
                          iframeUntil := some (now + duration)
                          dashUntil := some (now + duration)
                          dashFactor := some (5 / 2) }),
             projectiles,
             [Ev.dashStarted playerId duration true])
      | .nova => (players, projectiles, [])

lemma cdGet_cdSet (cd : List (String × ℚ)) (key : String) (v : ℚ) :
    cdGet (cdSet cd key v) key = v := by
  unfold cdGet cdSet
  by_cases ha : cd.any (fun kv => kv.1 == key) = true
  · rw [if_pos ha]
    obtain ⟨kv, hmem, hkv⟩ := List.any_eq_true.mp ha
    induction cd with
    | nil => cases hmem
    | cons a l ih =>
        by_cases hc : (a.1 == key) = true
        · have ha1 : a.1 = key := by simpa using hc
          simp [List.find?_cons, ha1]
        · rcases List.mem_cons.mp hmem with rfl | hmem'
          · exact absurd hkv hc
          · simp only [List.map_cons, List.find?_cons, hc, Bool.false_eq_true, if_false]
            exact ih (List.any_eq_true.mpr ⟨kv, hmem', hkv⟩) hmem'
  · rw [if_neg ha]
    induction cd with
    | nil => simp [List.find?_cons]
    | cons a l ih =>
        have hc : (a.1 == key) = false := by
          by_contra hcc
          exact ha (List.any_eq_true.mpr ⟨a, List.mem_cons_self a l, by simpa using hcc⟩)
        simp only [List.cons_append, List.find?_cons, hc, Bool.false_eq_true, if_false]
        exact ih (fun hread => ha (by
          obtain ⟨kv, hmem, hkv⟩ := List.any_eq_true.mp hread
          exact List.any_eq_true.mpr ⟨kv, List.mem_cons_of_mem _ hmem, hkv⟩))

lemma getPlayer_updatePlayer_self {ps : List Player} {pid : String} {p : Player}
    (f : Player → Player) (hp : getPlayer ps pid = some p)
    (hf : ∀ q, (f q).id = q.id) :
    getPlayer (updatePlayer ps pid f) pid = some (f p) := by
  rw [getPlayer_updatePlayer ps pid pid f hf, hp]
  dsimp only [Option.map]
  rw [if_pos (by simp [getPlayer_eq_id hp])]

lemma foldl_addShotFired_id (l : List ℕ) (q : Player) :
    (l.foldl (fun q _ => q.addShotFired) q).id = q.id := by
  induction l generalizing q with
  | nil => rfl
  | cons a t ih => simpa [Player.addShotFired] using ih q.addShotFired

lemma foldl_addShotFired_cd (l : List ℕ) (q : Player) :
    (l.foldl (fun q _ => q.addShotFired) q).cd = q.cd := by
  induction l generalizing q with
  | nil => rfl
  | cons a t ih => simpa [Player.addShotFired] using ih q.addShotFired

/-- C7: cooldown semantics of `cmd:cast` for a live player and a skill with
a cast branch: when the stored cooldown for that skill lies in the future,
the handler returns with the world unchanged and no event; otherwise it
writes `cd[skill] = now + cooldown(skill)` and the cast takes effect (dash
flags for dash, new projectile(s) otherwise, with at least one event). -/
theorem cast_cooldown_semantics
    (now : ℚ) (players : List Player) (projectiles : List Projectile)
    (playerId : String) (skill : Skill) (ids : List String) (vels : List Vec2)
    (p : Player)
    (hp : getPlayer players playerId = some p)
    (halive : p.isDeadPlayer = false)
    (hsk : skill ≠ Skill.nova) :
    (cdGet p.cd ("cd:" ++ skill.key) > now →
      onCmdCast now players projectiles playerId skill ids vels =
        (players, projectiles, [])) ∧
    (¬ cdGet p.cd ("cd:" ++ skill.key) > now →
      ∃ p', getPlayer (onCmdCast now players projectiles playerId skill ids vels).1 playerId
          = some p' ∧
        cdGet p'.cd ("cd:" ++ skill.key) = now + skill.cooldown ∧
        (skill = Skill.dash →
          p'.dashUntil = some (now + 220) ∧ p'.iframeUntil = some (now + 220)) ∧
        (skill ≠ Skill.dash →
          (onCmdCast now players projectiles playerId skill ids vels).2.1.length
            = projectiles.length +
              (if skill = Skill.shotgun then Config.pelletCount else 1)) ∧
        (onCmdCast now players projectiles playerId skill ids vels).2.2 ≠ []) := by
  unfold onCmdCast
  rw [hp]
  simp only [halive, Bool.false_eq_true, if_false]
  cases skill with
  | nova => exact absurd rfl hsk
  | shoot =>
      dsimp only
      constructor
      · intro hcd
        rw [if_pos hcd]
      · intro hcd
        rw [if_neg hcd]
        refine ⟨_, getPlayer_updatePlayer_self _ hp (fun q => rfl), ?_, ?_, ?_, ?_⟩
        · show cdGet (cdSet p.cd _ _) _ = _
          rw [cdGet_cdSet]
          rfl
        · intro h; cases h
        · intro _
          simp [Skill.key]
        · simp
  | shotgun =>
      dsimp only
      constructor
      · intro hcd
        rw [if_pos hcd]
      · intro hcd
        rw [if_neg hcd]
        refine ⟨_, getPlayer_updatePlayer_self _ hp
          (fun q => by rw [foldl_addShotFired_id]), ?_, ?_, ?_, ?_⟩
        · rw [foldl_addShotFired_cd, cdGet_cdSet]
          rfl
        · intro h; cases h
        · intro _
          simp [Skill.key, Config.pelletCount]
        · simp [Config.pelletCount]
  | rocket =>
      dsimp only
      constructor
      · intro hcd
        rw [if_pos hcd]
      · intro hcd
        rw [if_neg hcd]
        refine ⟨_, getPlayer_updatePlayer_self _ hp (fun q => rfl), ?_, ?_, ?_, ?_⟩
        · show cdGet (cdSet p.cd _ _) _ = _
          rw [cdGet_cdSet]
          rfl
        · intro h; cases h
        · intro _
          simp [Skill.key]
        · simp
  | dash =>
      dsimp only
      constructor
      · intro hcd
        rw [if_pos hcd]
      · intro hcd
        rw [if_neg hcd]
        refine ⟨_, getPlayer_updatePlayer_self _ hp (fun q => rfl), ?_, ?_, ?_, ?_⟩
        · show cdGet (cdSet p.cd _ _) _ = _
          rw [cdGet_cdSet]
          rfl
        · intro _
          exact ⟨rfl, rfl⟩
        · intro h
          exact absurd rfl h
        · simp

/-- Witness for the C7 theorem: a live fresh player with empty cooldowns
casting shoot at `now = 5`; the cooldown hypothesis is discharged by
evaluation (`cdGet [] _ = 0`). -/
theorem cast_cooldown_semantics_witness :
    ∃ p', getPlayer (onCmdCast 5 [witnessPlayer] [] "w" Skill.shoot ["u1"] [⟨1, 0⟩]).1 "w"
        = some p' ∧
      cdGet p'.cd ("cd:" ++ Skill.shoot.key) = 5 + Skill.shoot.cooldown ∧
      (Skill.shoot = Skill.dash →
        p'.dashUntil = some (5 + 220) ∧ p'.iframeUntil = some (5 + 220)) ∧
      (Skill.shoot ≠ Skill.dash →
        (onCmdCast 5 [witnessPlayer] [] "w" Skill.shoot ["u1"] [⟨1, 0⟩]).2.1.length
          = ([] : List Projectile).length +
            (if Skill.shoot = Skill.shotgun then Config.pelletCount else 1)) ∧
      (onCmdCast 5 [witnessPlayer] [] "w" Skill.shoot ["u1"] [⟨1, 0⟩]).2.2 ≠ [] :=
  (cast_cooldown_semantics 5 [witnessPlayer] [] "w" Skill.shoot ["u1"] [⟨1, 0⟩]
      witnessPlayer (by decide) (by decide) (by decide)).2
    (by decide)

/-- Witness for the C1 theorem: instantiated with a one-player world where
the damage source is the target themselves. -/
theorem kill_credited_whenever_source_resolves_witness :
    (∃ k', getPlayer (killResolution 5 [witnessPlayer] []
        ⟨"w", 40, some "w", some .explosion⟩).1 "w" = some k' ∧
      k'.stats.kills = witnessPlayer.stats.kills + 1) ∧
    Ev.streakChanged "w" (witnessPlayer.stats.currentStreak + 1)
        witnessPlayer.stats.currentStreak
      ∈ (killResolution 5 [witnessPlayer] [] ⟨"w", 40, some "w", some .explosion⟩).2.2 :=
  kill_credited_whenever_source_resolves 5 [witnessPlayer] []
    ⟨"w", 40, some "w", some .explosion⟩ witnessPlayer witnessPlayer "w" rfl rfl rfl

attribute [local semireducible] Rat.add Rat.sub Rat.mul Rat.inv in
/-- Witness for the C3 theorem: the heal-preservation part applied to a
fresh live player, whose invariant is provided by the join part. -/
theorem hp_isDead_invariant_preservation_witness :
    hpInvariant (witnessPlayer.heal 35) :=
  hp_isDead_invariant_preservation.2.2.1 witnessPlayer
    (hp_isDead_invariant_preservation.1 "w" "W" ⟨0, 0⟩ ⟨0, 0⟩ ⟨1, 0⟩ 0) rfl

/-- C10: along every sequence of statistics operations starting from a fresh
`PlayerStats` record (`addShotHit` also increments `shotsFired`, plain casts
only increment `shotsFired`, `reset` zeroes both), `shotsHit ≤ shotsFired`
holds, and consequently the reported accuracy percentage never exceeds 100. -/
theorem stats_shotsHit_le_shotsFired (now : ℚ) (ops : List StatOp) :
    ((PlayerStats.init now).applyOps ops).shotsHit ≤
      ((PlayerStats.init now).applyOps ops).shotsFired ∧
    ((PlayerStats.init now).applyOps ops).getAccuracy ≤ 100 := by
  have h := PlayerStats.applyOps_hit_le (PlayerStats.init now) ops
    (by simp [PlayerStats.init])
  exact ⟨h, PlayerStats.accuracy_le_of_hit_le _ h⟩

end EventArena
